import Mathlib

/-!
# Peak detector and sorter: a shallow embedding

Two Arduino sketches are embedded here:

* `src/main.cpp` (namespace `Sorter`): detect a peak, classify it, move the sorter servo;
* `src/callibrate-thresholds.cpp` (namespace `Calibrate`): detect peaks and store them in a
  fixed-size array, then print the array and halt.

Both sketches share the constants `TRIGGER_THRESHOLD`, `PEAK_WINDOW_MS`, `COOLDOWN_TIME_MS`
and the `State` enumeration (declared with the same values in each file).

Conventions of the embedding:

* global variables become fields of a state record, `loop()` becomes a function from a
  state and the values read from the hardware during that iteration to the next state;
* `int` values (sensor readings, peaks, angles, the sample index) are `Int`: the sketches
  only compare, copy and increment them (up to `MAX_SAMPLES`), so no overflow can occur;
* `unsigned long` clock values are `Nat` below `2 ^ 32`, and the subtraction
  `millis() - stateChangeTime` is computed modulo `2 ^ 32` (`elapsedMs`);
* the servo and the serial port are output logs (oldest entry first);
* `events` is a ghost log: one entry per execution of the "window done" branch.
-/

/-! ## Shared declarations -/

/-- Constant `const int TRIGGER_THRESHOLD = 527;`. -/
def TRIGGER_THRESHOLD : Int := 527

/-- Constant `const unsigned long PEAK_WINDOW_MS = 50;`. -/
def PEAK_WINDOW_MS : Nat := 50

/-- Constant `const unsigned long COOLDOWN_TIME_MS = 3000;`. -/
def COOLDOWN_TIME_MS : Nat := 3000

/-- Enumeration `enum State { WAITING_FOR_PEAK, RECORDING_PEAK, COOLDOWN };`. -/
inductive State where
  | WAITING_FOR_PEAK
  | RECORDING_PEAK
  | COOLDOWN
  deriving DecidableEq, Repr

/-- Number of values of an `unsigned long` on the target (32 bits). -/
def ULONG_RANGE : Nat := 4294967296

/-- The expression `millis() - stateChangeTime` on `unsigned long` operands: subtraction
modulo `2 ^ 32`. Both arguments are clock values below `ULONG_RANGE`. -/
def elapsedMs (now stateChangeTime : Nat) : Nat :=
  (now + ULONG_RANGE - stateChangeTime) % ULONG_RANGE

/-- The values one iteration of `loop()` reads from the hardware.
`sensorValue` is the result of `analogRead(ANALOG_PIN)`; `now` is the result of the first
call of `millis()` in the iteration; `stamp` is the result of the second call of `millis()`,
which is made only in the "window done" branch (`stateChangeTime = millis();` after the
elapsed-time test has already read the clock once). -/
structure Poll where
  sensorValue : Int
  now : Nat
  stamp : Nat
  deriving DecidableEq, Repr

/-- A poll in which both clock reads of the iteration return the same value `t`: the
(timestamp, sample) pair of the specification. -/
def sampleAt (t : Nat) (v : Int) : Poll := ⟨v, t, t⟩

/-- Ghost record of one execution of the "window done" branch: the peak that was captured
and the clock value at which the window was found to be over. -/
structure PeakEvent where
  peakMagnitude : Int
  completedAt : Nat
  deriving DecidableEq, Repr

/-- One call on the serial port. -/
inductive SerialOp where
  | print (s : String)
  | println (s : String)
  | printInt (v : Int)
  | printlnInt (v : Int)
  deriving DecidableEq, Repr

/-- The clock never runs backwards and never wraps: every read is at least the previous
one (`last`) and below `ULONG_RANGE`. -/
def clockOk (last : Nat) : List Poll → Prop
  | [] => True
  | p :: ps => last ≤ p.now ∧ p.now ≤ p.stamp ∧ p.stamp < ULONG_RANGE ∧ clockOk p.stamp ps

instance clockOkDecidable : (last : Nat) → (ps : List Poll) → Decidable (clockOk last ps)
  | _, [] => isTrue trivial
  | last, p :: ps =>
    have := clockOkDecidable p.stamp ps
    show Decidable (last ≤ p.now ∧ p.now ≤ p.stamp ∧ p.stamp < ULONG_RANGE ∧ clockOk p.stamp ps)
      from inferInstance

/-- Running maximum of a window: the trigger value, then every later value that is
strictly greater than the maximum so far. -/
def windowMax (first : Int) (rest : List Poll) : Int :=
  rest.foldl (fun m p => max m p.sensorValue) first

/-! ## `src/main.cpp` -/

namespace Sorter

/-- Enumeration `enum Material { MAT_UNKNOWN, MAT_PLASTIC, MAT_GLASS, MAT_METAL };`. -/
inductive Material where
  | MAT_UNKNOWN
  | MAT_PLASTIC
  | MAT_GLASS
  | MAT_METAL
  deriving DecidableEq, Repr

/-- The global variables of `main.cpp`, the servo log (`sortServo.write` calls), the
serial log and the ghost event log. -/
structure Globals where
  currentState : State
  currentPeak : Int
  stateChangeTime : Nat
  sortCurrentAngle : Int
  servo : List Int
  serial : List SerialOp
  events : List PeakEvent
  deriving DecidableEq, Repr

/-- Function `Material classifyPeak(int val)`, lines 28-33. -/
def classifyPeak (val : Int) : Material :=
  if val ≥ 555 ∧ val ≤ 650 then Material.MAT_METAL
  else if val ≥ 540 ∧ val ≤ 554 then Material.MAT_GLASS
  else if val ≥ 527 ∧ val ≤ 539 then Material.MAT_PLASTIC
  else Material.MAT_UNKNOWN

/-- The `switch (m)` of `moveSorterFor`, lines 36-50: the value of the local `target`. -/
def targetFor (sortCurrentAngle : Int) (m : Material) : Int :=
  match m with
  | Material.MAT_PLASTIC => 80
  | Material.MAT_GLASS => 100
  | Material.MAT_METAL => 125
  | Material.MAT_UNKNOWN => sortCurrentAngle

/-- Function `void moveSorterFor(Material m)`, lines 35-55. -/
def moveSorterFor (g : Globals) (m : Material) : Globals :=
  let target := targetFor g.sortCurrentAngle m
  if target ≠ g.sortCurrentAngle then
    { g with servo := g.servo ++ [target], sortCurrentAngle := target }
  else g

/-- The globals as initialised by their declarations (lines 15-22), before `setup()`. -/
def boot : Globals :=
  { currentState := State.WAITING_FOR_PEAK
    currentPeak := 0
    stateChangeTime := 0
    sortCurrentAngle := 100
    servo := []
    serial := []
    events := [] }

/-- Function `void setup()`, lines 57-67; `t0` is the value returned by `millis()`. -/
def setup (t0 : Nat) : Globals :=
  { boot with
    serial := boot.serial ++ [SerialOp.println "--- Detector + Sorter (with enforced cooldown) ---"]
    servo := boot.servo ++ [boot.sortCurrentAngle]
    currentState := State.WAITING_FOR_PEAK
    currentPeak := 0
    stateChangeTime := t0 }

/-- The debug output of the "window done" branch, lines 94-110. -/
def debugLines (peak : Int) (m : Material) : List SerialOp :=
  [SerialOp.print "Peak: ", SerialOp.printInt peak, SerialOp.print " -> ",
    match m with
    | Material.MAT_PLASTIC => SerialOp.println "PLASTIC (->80°)"
    | Material.MAT_GLASS => SerialOp.println "GLASS (->100°)"
    | Material.MAT_METAL => SerialOp.println "METAL (->129°)"
    | Material.MAT_UNKNOWN => SerialOp.println "UNKNOWN (no move)"]

/-- Function `void loop()`, lines 69-128. -/
def loop (g : Globals) (p : Poll) : Globals :=
  match g.currentState with
  | State.WAITING_FOR_PEAK =>
    if p.sensorValue ≥ TRIGGER_THRESHOLD then
      { g with
        currentPeak := p.sensorValue
        stateChangeTime := p.now
        currentState := State.RECORDING_PEAK }
    else g
  | State.RECORDING_PEAK =>
    if elapsedMs p.now g.stateChangeTime < PEAK_WINDOW_MS then
      if p.sensorValue > g.currentPeak then { g with currentPeak := p.sensorValue } else g
    else
      let m := classifyPeak g.currentPeak
      let g1 := moveSorterFor g m
      { g1 with
        serial := g1.serial ++ debugLines g.currentPeak m
        events := g1.events ++ [⟨g.currentPeak, p.now⟩]
        stateChangeTime := p.stamp
        currentPeak := 0
        currentState := State.COOLDOWN }
  | State.COOLDOWN =>
    if elapsedMs p.now g.stateChangeTime ≥ COOLDOWN_TIME_MS then
      { g with currentState := State.WAITING_FOR_PEAK }
    else g

/-- The Arduino main program after `setup()`: `loop()` is called once per poll. -/
def run (g : Globals) (polls : List Poll) : Globals :=
  polls.foldl loop g

/-- A sequence of calls of `moveSorterFor`. -/
def applyAll (g : Globals) (ms : List Material) : Globals :=
  ms.foldl moveSorterFor g

end Sorter

/-! ## `src/callibrate-thresholds.cpp` -/

namespace Calibrate

/-- Constant `const int MAX_SAMPLES = 100;`. -/
def MAX_SAMPLES : Nat := 100

/-- The global variables of `callibrate-thresholds.cpp`, the serial log, the ghost event
log, and `halted`, which is set when the sketch has entered `while (true);`.
`primaryPeakReadings` is the array `int primaryPeakReadings[MAX_SAMPLES]`. -/
structure Globals where
  primaryPeakReadings : List Int
  sampleIndex : Int
  currentState : State
  currentPeak : Int
  stateChangeTime : Nat
  serial : List SerialOp
  events : List PeakEvent
  halted : Bool
  deriving DecidableEq, Repr

/-- The globals as initialised by their declarations (lines 12-20); the array and
`stateChangeTime` have static storage and start at zero. The capacity of the array is
the parameter `maxSamples` (`MAX_SAMPLES` in the sketch). -/
def boot (maxSamples : Nat) : Globals :=
  { primaryPeakReadings := List.replicate maxSamples 0
    sampleIndex := 0
    currentState := State.WAITING_FOR_PEAK
    currentPeak := 0
    stateChangeTime := 0
    serial := []
    events := []
    halted := false }

/-- Function `void setup()`, lines 22-28. -/
def setup (maxSamples : Nat) : Globals :=
  { boot maxSamples with
    serial := [SerialOp.println "--- Starting Primary Peak Voltage Capture ---",
      SerialOp.print "Target Samples: ", SerialOp.printlnInt maxSamples] }

/-- The output of the capacity branch, lines 33-39: the banner, the begin sentinel, the
array entries `0 .. maxSamples - 1` one per line, the end sentinel. An index outside the
list reads as 0; there is none when the array has `maxSamples` entries. -/
def dumpLines (maxSamples : Nat) (readings : List Int) : List SerialOp :=
  [SerialOp.println "\n--- ALL SAMPLES COLLECTED ---", SerialOp.println "START_DATA_CAPTURE"]
    ++ (List.range maxSamples).map (fun i => SerialOp.printlnInt (readings.getD i 0))
    ++ [SerialOp.println "END_DATA_CAPTURE"]

/-- The part of `loop()` after the capacity check, lines 43-82: the sensor is read and the
`switch (currentState)` is executed. The result is `none` when the assignment
`primaryPeakReadings[sampleIndex] = currentPeak` falls outside the array. -/
def capture (g : Globals) (p : Poll) : Option Globals :=
  match g.currentState with
  | State.WAITING_FOR_PEAK =>
    if p.sensorValue ≥ TRIGGER_THRESHOLD then
      some { g with
        currentPeak := p.sensorValue
        stateChangeTime := p.now
        currentState := State.RECORDING_PEAK }
    else some g
  | State.RECORDING_PEAK =>
    if elapsedMs p.now g.stateChangeTime < PEAK_WINDOW_MS then
      if p.sensorValue > g.currentPeak then some { g with currentPeak := p.sensorValue }
      else some g
    else if 0 ≤ g.sampleIndex ∧ g.sampleIndex < g.primaryPeakReadings.length then
      some { g with
        primaryPeakReadings := g.primaryPeakReadings.set g.sampleIndex.toNat g.currentPeak
        serial := g.serial ++ [SerialOp.printlnInt g.currentPeak]
        events := g.events ++ [⟨g.currentPeak, p.now⟩]
        sampleIndex := g.sampleIndex + 1
        stateChangeTime := p.stamp
        currentState := State.COOLDOWN }
    else none
  | State.COOLDOWN =>
    if elapsedMs p.now g.stateChangeTime ≥ COOLDOWN_TIME_MS then
      some { g with currentState := State.WAITING_FOR_PEAK, currentPeak := 0 }
    else some g

/-- Function `void loop()`, lines 30-83, with capacity `maxSamples`: the capacity check
with the dump and `while (true);` (lines 32-41), then `capture`. The capacity branch reads
neither the sensor nor the clock, so the poll is not used there. A halted sketch performs
no further iteration, so `loop` leaves a halted state as it is. -/
def loop (maxSamples : Nat) (g : Globals) (p : Poll) : Option Globals :=
  if g.halted then some g
  else if g.sampleIndex ≥ maxSamples then
    some { g with
      serial := g.serial ++ dumpLines maxSamples g.primaryPeakReadings
      halted := true }
  else capture g p

/-- The Arduino main program after `setup()`: `loop()` is called once per poll, and an
out-of-bounds write ends the run with `none`. -/
def run (maxSamples : Nat) (g : Globals) : List Poll → Option Globals
  | [] => some g
  | p :: ps =>
    match loop maxSamples g p with
    | some g1 => run maxSamples g1 ps
    | none => none

end Calibrate

/-! ## Predicates used in the proofs -/

/-- Any two events of the log, the earlier one first, complete at least
`PEAK_WINDOW_MS + COOLDOWN_TIME_MS` apart. -/
def eventsSpaced (events : List PeakEvent) : Prop :=
  events.Pairwise (fun a b => a.completedAt + (PEAK_WINDOW_MS + COOLDOWN_TIME_MS) ≤ b.completedAt)

/-- Timing invariant of the state machine; `last` is the latest clock value read so far.
The events are spaced, and every event lies far enough in the past for the state the
machine is in; outside `WAITING_FOR_PEAK` the state was entered no later than `last`. -/
def timingInv (last : Nat) (st : State) (sct : Nat) (events : List PeakEvent) : Prop :=
  eventsSpaced events ∧
    match st with
    | State.WAITING_FOR_PEAK => ∀ e ∈ events, e.completedAt + COOLDOWN_TIME_MS ≤ last
    | State.RECORDING_PEAK => sct ≤ last ∧ ∀ e ∈ events, e.completedAt + COOLDOWN_TIME_MS ≤ sct
    | State.COOLDOWN => sct ≤ last ∧ ∀ e ∈ events, e.completedAt ≤ sct

/-- Buffer invariant of the calibration sketch: the array has `maxSamples` entries, the
index is within `0 .. maxSamples`, the entries below the index are the captured peaks in
capture order, and the sketch halts only with a full buffer. -/
def Calibrate.bufferInv (maxSamples : Nat) (g : Calibrate.Globals) : Prop :=
  g.primaryPeakReadings.length = maxSamples ∧ 0 ≤ g.sampleIndex ∧ g.sampleIndex ≤ maxSamples ∧
  g.primaryPeakReadings.take g.sampleIndex.toNat = g.events.map PeakEvent.peakMagnitude ∧
  (g.halted = true → g.sampleIndex = maxSamples)

/-! ## Definitions used to state the later claims -/

/-- A configured magnitude range: inclusive bounds and the category it stands for. -/
structure Sorter.Range where
  low : Int
  high : Int
  material : Sorter.Material
  deriving DecidableEq, Repr

/-- The Metal range of `classifyPeak`, line 29. -/
def Sorter.METAL_RANGE : Sorter.Range := ⟨555, 650, Sorter.Material.MAT_METAL⟩

/-- The Glass range of `classifyPeak`, line 30. -/
def Sorter.GLASS_RANGE : Sorter.Range := ⟨540, 554, Sorter.Material.MAT_GLASS⟩

/-- The Plastic range of `classifyPeak`, line 31. -/
def Sorter.PLASTIC_RANGE : Sorter.Range := ⟨527, 539, Sorter.Material.MAT_PLASTIC⟩

/-- Membership of a value in a range, both ends included. -/
def Sorter.Range.contains (r : Sorter.Range) (val : Int) : Prop :=
  val ≥ r.low ∧ val ≤ r.high

instance Sorter.Range.containsDecidable (r : Sorter.Range) (val : Int) :
    Decidable (r.contains val) :=
  inferInstanceAs (Decidable (val ≥ r.low ∧ val ≤ r.high))

/-- Specification-side classifier, not taken from the source: the ranges of `order` are
tested one after the other, the first range that contains `val` gives the category, and a
value in no range is Unknown. It is compared with `classifyPeak` below. -/
def Sorter.classifyInOrder : List Sorter.Range → Int → Sorter.Material
  | [], _ => Sorter.Material.MAT_UNKNOWN
  | r :: rest, val => if r.contains val then r.material else Sorter.classifyInOrder rest val

/-- The edges of the state machine named in the specification: every state may stay where
it is, and the only changes are waiting to recording, recording to cooldown, cooldown to
waiting. -/
def allowedStep (a b : State) : Prop :=
  (a = State.WAITING_FOR_PEAK ∧ b = State.WAITING_FOR_PEAK) ∨
  (a = State.WAITING_FOR_PEAK ∧ b = State.RECORDING_PEAK) ∨
  (a = State.RECORDING_PEAK ∧ b = State.RECORDING_PEAK) ∨
  (a = State.RECORDING_PEAK ∧ b = State.COOLDOWN) ∨
  (a = State.COOLDOWN ∧ b = State.COOLDOWN) ∨
  (a = State.COOLDOWN ∧ b = State.WAITING_FOR_PEAK)

instance allowedStepDecidable (a b : State) : Decidable (allowedStep a b) := by
  unfold allowedStep
  infer_instance

/-- Magnitude invariant of the state machine; `seen` are the polls processed so far. While
recording, `currentPeak` is at least the threshold and is the value of a poll seen, and so
is the peak of every event logged. -/
def peakInv (seen : List Poll) (st : State) (peak : Int) (events : List PeakEvent) : Prop :=
  (st = State.RECORDING_PEAK →
    TRIGGER_THRESHOLD ≤ peak ∧ ∃ p ∈ seen, peak = p.sensorValue) ∧
  ∀ e ∈ events,
    TRIGGER_THRESHOLD ≤ e.peakMagnitude ∧ ∃ p ∈ seen, e.peakMagnitude = p.sensorValue

/-- Correspondence between a state of the sorting sketch and a state of the calibration
sketch: same state of the machine, same event log, the same `stateChangeTime` once a window
has been opened, and the same `currentPeak` while recording. -/
def sameMachine (s : Sorter.Globals) (c : Calibrate.Globals) : Prop :=
  s.currentState = c.currentState ∧ s.events = c.events ∧
  (s.currentState ≠ State.WAITING_FOR_PEAK → s.stateChangeTime = c.stateChangeTime) ∧
  (s.currentState = State.RECORDING_PEAK → s.currentPeak = c.currentPeak)

/-! ## Classification -/

/-- C3: for every integer `v`, `classifyPeak v` is Metal exactly when `555 ≤ v ≤ 650`, Glass
exactly when `540 ≤ v ≤ 554`, Plastic exactly when `527 ≤ v ≤ 539`, and Unknown exactly when
`v < 527` or `v > 650`; the boundary values 554/555 and 539/540 fall on the stated sides, and
`classifyPeak` maps 600, 545, 530, 10 to Metal, Glass, Plastic, Unknown. -/
theorem classifyPeak_ranges :
    (∀ v : Int,
      (Sorter.classifyPeak v = Sorter.Material.MAT_METAL ↔ 555 ≤ v ∧ v ≤ 650) ∧
      (Sorter.classifyPeak v = Sorter.Material.MAT_GLASS ↔ 540 ≤ v ∧ v ≤ 554) ∧
      (Sorter.classifyPeak v = Sorter.Material.MAT_PLASTIC ↔ 527 ≤ v ∧ v ≤ 539) ∧
      (Sorter.classifyPeak v = Sorter.Material.MAT_UNKNOWN ↔ v < 527 ∨ v > 650)) ∧
    Sorter.classifyPeak 554 = Sorter.Material.MAT_GLASS ∧
    Sorter.classifyPeak 555 = Sorter.Material.MAT_METAL ∧
    Sorter.classifyPeak 539 = Sorter.Material.MAT_PLASTIC ∧
    Sorter.classifyPeak 540 = Sorter.Material.MAT_GLASS ∧
    Sorter.classifyPeak 600 = Sorter.Material.MAT_METAL ∧
    Sorter.classifyPeak 545 = Sorter.Material.MAT_GLASS ∧
    Sorter.classifyPeak 530 = Sorter.Material.MAT_PLASTIC ∧
    Sorter.classifyPeak 10 = Sorter.Material.MAT_UNKNOWN := by
  refine ⟨fun v => ?_, by decide, by decide, by decide, by decide, by decide, by decide,
    by decide, by decide⟩
  unfold Sorter.classifyPeak
  refine ⟨?_, ?_, ?_, ?_⟩ <;> split_ifs <;> simp <;> omega

/-! ## Actuation policy -/

/-- One call of `moveSorterFor` whose target is the remembered angle changes nothing. -/
theorem moveSorterFor_same (g : Sorter.Globals) (m : Sorter.Material)
    (h : Sorter.targetFor g.sortCurrentAngle m = g.sortCurrentAngle) :
    Sorter.moveSorterFor g m = g := by
  simp [Sorter.moveSorterFor, h]

/-- One call of `moveSorterFor` whose target differs from the remembered angle writes the
target to the servo and remembers it. -/
theorem moveSorterFor_move (g : Sorter.Globals) (m : Sorter.Material)
    (h : Sorter.targetFor g.sortCurrentAngle m ≠ g.sortCurrentAngle) :
    Sorter.moveSorterFor g m =
      { g with
        servo := g.servo ++ [Sorter.targetFor g.sortCurrentAngle m]
        sortCurrentAngle := Sorter.targetFor g.sortCurrentAngle m } := by
  simp [Sorter.moveSorterFor, h]

/-- After a call of `moveSorterFor` the target of the same material is the remembered
angle. -/
theorem targetFor_after_move (g : Sorter.Globals) (m : Sorter.Material) :
    Sorter.targetFor (Sorter.moveSorterFor g m).sortCurrentAngle m =
      (Sorter.moveSorterFor g m).sortCurrentAngle := by
  by_cases h : Sorter.targetFor g.sortCurrentAngle m = g.sortCurrentAngle
  · rw [moveSorterFor_same g m h]; exact h
  · rw [moveSorterFor_move g m h]
    cases m <;> simp [Sorter.targetFor] at h ⊢

/-- Repeating a material whose target is already the remembered angle changes nothing. -/
theorem applyAll_replicate_same (g : Sorter.Globals) (m : Sorter.Material) (n : Nat)
    (h : Sorter.targetFor g.sortCurrentAngle m = g.sortCurrentAngle) :
    Sorter.applyAll g (List.replicate n m) = g := by
  induction n with
  | zero => rfl
  | succ k ih =>
    simp only [Sorter.applyAll, List.replicate_succ, List.foldl_cons] at ih ⊢
    rw [moveSorterFor_same g m h]
    exact ih

/-- C4: for every state (remembered position `p = g.sortCurrentAngle`) and material `m`,
the target is 80 for Plastic, 100 for Glass, 125 for Metal and `p` for Unknown; when the
target differs from `p`, `moveSorterFor` appends exactly that one value to the servo log and
remembers it, all else unchanged; when it equals `p`, the state is unchanged (no command). -/
theorem moveSorterFor_contract (g : Sorter.Globals) (m : Sorter.Material) :
    (Sorter.targetFor g.sortCurrentAngle Sorter.Material.MAT_PLASTIC = 80 ∧
      Sorter.targetFor g.sortCurrentAngle Sorter.Material.MAT_GLASS = 100 ∧
      Sorter.targetFor g.sortCurrentAngle Sorter.Material.MAT_METAL = 125 ∧
      Sorter.targetFor g.sortCurrentAngle Sorter.Material.MAT_UNKNOWN = g.sortCurrentAngle) ∧
    (Sorter.targetFor g.sortCurrentAngle m ≠ g.sortCurrentAngle →
      Sorter.moveSorterFor g m =
        { g with
          servo := g.servo ++ [Sorter.targetFor g.sortCurrentAngle m]
          sortCurrentAngle := Sorter.targetFor g.sortCurrentAngle m }) ∧
    (Sorter.targetFor g.sortCurrentAngle m = g.sortCurrentAngle →
      Sorter.moveSorterFor g m = g) :=
  ⟨⟨rfl, rfl, rfl, rfl⟩, moveSorterFor_move g m, moveSorterFor_same g m⟩

/-- Instance of C4 at the state after `setup` and Plastic: one command, value 80. -/
theorem moveSorterFor_contract_witness :
    Sorter.moveSorterFor (Sorter.setup 0) Sorter.Material.MAT_PLASTIC =
      { Sorter.setup 0 with servo := [100, 80], sortCurrentAngle := 80 } :=
  (moveSorterFor_contract (Sorter.setup 0) Sorter.Material.MAT_PLASTIC).2.1 (by decide)

/-- The servo-log invariant: the remembered angle is the last value written and no two
consecutive writes are equal. -/
theorem servo_invariant_step (g : Sorter.Globals) (m : Sorter.Material)
    (h : g.servo.getLast? = some g.sortCurrentAngle ∧ List.Chain' (· ≠ ·) g.servo) :
    (Sorter.moveSorterFor g m).servo.getLast? = some (Sorter.moveSorterFor g m).sortCurrentAngle ∧
      List.Chain' (· ≠ ·) (Sorter.moveSorterFor g m).servo := by
  by_cases ht : Sorter.targetFor g.sortCurrentAngle m = g.sortCurrentAngle
  · rw [moveSorterFor_same g m ht]; exact h
  · rw [moveSorterFor_move g m ht]
    refine ⟨by simp, ?_⟩
    simp only [List.chain'_append, List.chain'_singleton, true_and]
    refine ⟨h.2, ?_⟩
    intro x hx y hy
    rw [h.1] at hx
    simp at hx hy
    subst hx; subst hy
    exact fun e => ht e.symm

/-- The servo-log invariant is kept by any sequence of calls of `moveSorterFor`. -/
theorem servo_invariant_applyAll (ms : List Sorter.Material) (g : Sorter.Globals)
    (h : g.servo.getLast? = some g.sortCurrentAngle ∧ List.Chain' (· ≠ ·) g.servo) :
    (Sorter.applyAll g ms).servo.getLast? = some (Sorter.applyAll g ms).sortCurrentAngle ∧
      List.Chain' (· ≠ ·) (Sorter.applyAll g ms).servo := by
  induction ms generalizing g with
  | nil => exact h
  | cons m rest ih => exact ih (Sorter.moveSorterFor g m) (servo_invariant_step g m h)

/-- C5: after `setup` (which writes 100 to the servo and remembers it) and any sequence of
calls of `moveSorterFor`, the remembered position is the most recent value written to the
servo, and the sequence of all values written (the initial write included) has no two equal
consecutive values. As `ms` ranges over all sequences, this holds after every call. -/
theorem servo_log_no_repeat (t0 : Nat) (ms : List Sorter.Material) :
    (Sorter.setup t0).servo = [100] ∧ (Sorter.setup t0).sortCurrentAngle = 100 ∧
    (Sorter.applyAll (Sorter.setup t0) ms).servo.getLast? =
      some (Sorter.applyAll (Sorter.setup t0) ms).sortCurrentAngle ∧
    List.Chain' (· ≠ ·) (Sorter.applyAll (Sorter.setup t0) ms).servo :=
  ⟨rfl, rfl, servo_invariant_applyAll ms (Sorter.setup t0) ⟨rfl, by simp [Sorter.setup, Sorter.boot]⟩⟩

/-- C6 as stated fails: after `setup` (remembered position 100), applying Glass twice
(`N = 2`) issues no servo command at all, so it is not the case that exactly one command is
issued. -/
theorem repeated_glass_issues_no_command :
    ¬ ∃ a : Int, (Sorter.applyAll (Sorter.setup 0)
        (List.replicate 2 Sorter.Material.MAT_GLASS)).servo = (Sorter.setup 0).servo ++ [a] := by
  rintro ⟨a, ha⟩
  have h : ([100] : List Int) = [100] ++ [a] := ha
  simp at h

/-- C6 (amended): for every state, material `c` and `N ≥ 1`, applying `c` `N` times in a row
issues at most one servo command in total: exactly one, with the target of `c`, when that
target differs from the remembered position, and none (state unchanged) when it equals the
remembered position, as it always does for Unknown. -/
theorem repeated_material_at_most_one_command (g : Sorter.Globals) (c : Sorter.Material)
    (N : Nat) (hN : N ≥ 1) :
    (Sorter.targetFor g.sortCurrentAngle c ≠ g.sortCurrentAngle →
      Sorter.applyAll g (List.replicate N c) =
        { g with
          servo := g.servo ++ [Sorter.targetFor g.sortCurrentAngle c]
          sortCurrentAngle := Sorter.targetFor g.sortCurrentAngle c }) ∧
    (Sorter.targetFor g.sortCurrentAngle c = g.sortCurrentAngle →
      Sorter.applyAll g (List.replicate N c) = g) ∧
    Sorter.targetFor g.sortCurrentAngle Sorter.Material.MAT_UNKNOWN = g.sortCurrentAngle := by
  refine ⟨fun h => ?_, applyAll_replicate_same g c N, rfl⟩
  obtain ⟨k, rfl⟩ : ∃ k, N = k + 1 := ⟨N - 1, by omega⟩
  have h1 := applyAll_replicate_same (Sorter.moveSorterFor g c) c k (targetFor_after_move g c)
  simp only [Sorter.applyAll, List.replicate_succ, List.foldl_cons] at h1 ⊢
  rw [h1, moveSorterFor_move g c h]

/-- Instance of the amended C6: Metal three times after `setup` issues the single
command 125. -/
theorem repeated_material_at_most_one_command_witness :
    (3 ≥ 1) ∧
    Sorter.applyAll (Sorter.setup 0) (List.replicate 3 Sorter.Material.MAT_METAL) =
      { Sorter.setup 0 with servo := [100, 125], sortCurrentAngle := 125 } :=
  ⟨by decide,
    (repeated_material_at_most_one_command (Sorter.setup 0) Sorter.Material.MAT_METAL 3
      (by decide)).1 (by decide)⟩

/-- C7: from any state whose remembered position is 100, the calls Glass, Glass, Plastic
issue exactly one servo command in total, with value 80: the state is unchanged after the
first and after the second Glass call, and the Plastic call appends 80 to the servo log and
leaves the remembered position at 80. -/
theorem glass_glass_plastic (g : Sorter.Globals) (h : g.sortCurrentAngle = 100) :
    Sorter.applyAll g [Sorter.Material.MAT_GLASS] = g ∧
    Sorter.applyAll g [Sorter.Material.MAT_GLASS, Sorter.Material.MAT_GLASS] = g ∧
    (Sorter.applyAll g [Sorter.Material.MAT_GLASS, Sorter.Material.MAT_GLASS,
      Sorter.Material.MAT_PLASTIC]).servo = g.servo ++ [80] ∧
    (Sorter.applyAll g [Sorter.Material.MAT_GLASS, Sorter.Material.MAT_GLASS,
      Sorter.Material.MAT_PLASTIC]).sortCurrentAngle = 80 := by
  have hg : Sorter.moveSorterFor g Sorter.Material.MAT_GLASS = g :=
    moveSorterFor_same g _ (by simp [Sorter.targetFor, h])
  simp [Sorter.applyAll, hg]
  simp [Sorter.moveSorterFor, Sorter.targetFor, h]

/-- Instance of C7 at the state after `setup`: the declared initial angle is 100, and the
servo log grows from `[100]` to `[100, 80]`. -/
theorem glass_glass_plastic_witness :
    (Sorter.setup 0).sortCurrentAngle = 100 ∧
    (Sorter.applyAll (Sorter.setup 0) [Sorter.Material.MAT_GLASS, Sorter.Material.MAT_GLASS,
      Sorter.Material.MAT_PLASTIC]).servo = [100, 80] ∧
    (Sorter.applyAll (Sorter.setup 0) [Sorter.Material.MAT_GLASS, Sorter.Material.MAT_GLASS,
      Sorter.Material.MAT_PLASTIC]).sortCurrentAngle = 80 :=
  ⟨rfl, (glass_glass_plastic (Sorter.setup 0) rfl).2.2⟩

/-- Without wrap-around the `unsigned long` difference is the plain difference. -/
theorem elapsedMs_eq_sub (now start : Nat) (h1 : start ≤ now) (h2 : now < ULONG_RANGE) :
    elapsedMs now start = now - start := by
  unfold elapsedMs ULONG_RANGE at *
  omega

/-- The function `moveSorterFor` leaves `currentState` alone. -/
@[simp]
theorem moveSorterFor_currentState (g : Sorter.Globals) (m : Sorter.Material) :
    (Sorter.moveSorterFor g m).currentState = g.currentState := by
  simp only [Sorter.moveSorterFor]; split_ifs <;> rfl

/-- The function `moveSorterFor` leaves the event log alone. -/
@[simp]
theorem moveSorterFor_events (g : Sorter.Globals) (m : Sorter.Material) :
    (Sorter.moveSorterFor g m).events = g.events := by
  simp only [Sorter.moveSorterFor]; split_ifs <;> rfl

/-- The function `moveSorterFor` leaves `currentPeak` alone. -/
@[simp]
theorem moveSorterFor_currentPeak (g : Sorter.Globals) (m : Sorter.Material) :
    (Sorter.moveSorterFor g m).currentPeak = g.currentPeak := by
  simp only [Sorter.moveSorterFor]; split_ifs <;> rfl

/-- The function `moveSorterFor` leaves `stateChangeTime` alone. -/
@[simp]
theorem moveSorterFor_stateChangeTime (g : Sorter.Globals) (m : Sorter.Material) :
    (Sorter.moveSorterFor g m).stateChangeTime = g.stateChangeTime := by
  simp only [Sorter.moveSorterFor]; split_ifs <;> rfl

/-- Appending an event that completes late enough keeps the log spaced. -/
theorem eventsSpaced_append (events : List PeakEvent) (e : PeakEvent)
    (h : eventsSpaced events)
    (hlate : ∀ a ∈ events, a.completedAt + (PEAK_WINDOW_MS + COOLDOWN_TIME_MS) ≤ e.completedAt) :
    eventsSpaced (events ++ [e]) := by
  unfold eventsSpaced at h ⊢
  rw [List.pairwise_append]
  refine ⟨h, List.pairwise_singleton _ _, fun a ha b hb => ?_⟩
  simp only [List.mem_singleton] at hb
  subst hb
  exact hlate a ha

/-- The timing invariant in state `WAITING_FOR_PEAK` survives later clock reads. -/
theorem timingInv_waiting_keep (last next sct sct1 : Nat) (events : List PeakEvent)
    (h : timingInv last State.WAITING_FOR_PEAK sct events) (hn : last ≤ next) :
    timingInv next State.WAITING_FOR_PEAK sct1 events :=
  ⟨h.1, fun e he => le_trans (h.2 e he) hn⟩

/-- Entering `RECORDING_PEAK` at clock value `now` keeps the timing invariant. -/
theorem timingInv_trigger (last now next sct : Nat) (events : List PeakEvent)
    (h : timingInv last State.WAITING_FOR_PEAK sct events) (h1 : last ≤ now)
    (h2 : now ≤ next) : timingInv next State.RECORDING_PEAK now events :=
  ⟨h.1, h2, fun e he => le_trans (h.2 e he) h1⟩

/-- Staying in `RECORDING_PEAK` keeps the timing invariant. -/
theorem timingInv_recording_keep (last next sct : Nat) (events : List PeakEvent)
    (h : timingInv last State.RECORDING_PEAK sct events) (hn : last ≤ next) :
    timingInv next State.RECORDING_PEAK sct events :=
  ⟨h.1, le_trans h.2.1 hn, h.2.2⟩

/-- Closing the window at clock value `now`, at least `PEAK_WINDOW_MS` after it opened, and
stamping the cooldown at `stamp ≥ now` keeps the timing invariant with the new event. -/
theorem timingInv_close (last now stamp sct : Nat) (events : List PeakEvent) (peak : Int)
    (h : timingInv last State.RECORDING_PEAK sct events)
    (h1 : sct + PEAK_WINDOW_MS ≤ now) (h2 : now ≤ stamp) :
    timingInv stamp State.COOLDOWN stamp (events ++ [⟨peak, now⟩]) := by
  obtain ⟨hsp, _, hev⟩ := h
  refine ⟨eventsSpaced_append _ _ hsp (fun a ha => ?_), le_refl _, fun e he => ?_⟩
  · have := hev a ha
    simp only [PEAK_WINDOW_MS, COOLDOWN_TIME_MS] at *
    omega
  · simp only [List.mem_append, List.mem_singleton] at he
    rcases he with he | rfl
    · have := hev e he
      simp only [PEAK_WINDOW_MS, COOLDOWN_TIME_MS] at *
      omega
    · exact h2

/-- Staying in `COOLDOWN` keeps the timing invariant. -/
theorem timingInv_cooldown_keep (last next sct : Nat) (events : List PeakEvent)
    (h : timingInv last State.COOLDOWN sct events) (hn : last ≤ next) :
    timingInv next State.COOLDOWN sct events :=
  ⟨h.1, le_trans h.2.1 hn, h.2.2⟩

/-- Leaving `COOLDOWN` at clock value `now`, at least `COOLDOWN_TIME_MS` after it began,
keeps the timing invariant. -/
theorem timingInv_exit (last now next sct sct1 : Nat) (events : List PeakEvent)
    (h : timingInv last State.COOLDOWN sct events)
    (h1 : sct + COOLDOWN_TIME_MS ≤ now) (h2 : now ≤ next) :
    timingInv next State.WAITING_FOR_PEAK sct1 events := by
  refine ⟨h.1, fun e he => ?_⟩
  have := h.2.2 e he
  omega

/-- One iteration of the sorting sketch keeps the timing invariant. -/
theorem timingInv_sorter_step (last : Nat) (g : Sorter.Globals) (p : Poll)
    (h : timingInv last g.currentState g.stateChangeTime g.events)
    (h1 : last ≤ p.now) (h2 : p.now ≤ p.stamp) (h3 : p.stamp < ULONG_RANGE) :
    timingInv p.stamp (Sorter.loop g p).currentState (Sorter.loop g p).stateChangeTime
      (Sorter.loop g p).events := by
  unfold Sorter.loop
  cases hc : g.currentState <;> simp only [hc] at h ⊢
  · split_ifs
    · exact timingInv_trigger last p.now p.stamp _ _ h h1 h2
    · rw [hc]; exact timingInv_waiting_keep last p.stamp _ _ _ h (by omega)
  · have hel : elapsedMs p.now g.stateChangeTime = p.now - g.stateChangeTime :=
      elapsedMs_eq_sub _ _ (by have := h.2.1; omega) (by omega)
    rw [hel]
    split_ifs with ha hb
    · exact timingInv_recording_keep last p.stamp _ _ h (by omega)
    · rw [hc]; exact timingInv_recording_keep last p.stamp _ _ h (by omega)
    · simp only [moveSorterFor_events]
      exact timingInv_close last p.now p.stamp _ _ _ h
        (by have := h.2.1; simp only [PEAK_WINDOW_MS] at *; omega) h2
  · have hel : elapsedMs p.now g.stateChangeTime = p.now - g.stateChangeTime :=
      elapsedMs_eq_sub _ _ (by have := h.2.1; omega) (by omega)
    rw [hel]
    split_ifs with ha
    · exact timingInv_exit last p.now p.stamp _ _ _ h
        (by have := h.2.1; simp only [COOLDOWN_TIME_MS] at *; omega) h2
    · rw [hc]; exact timingInv_cooldown_keep last p.stamp _ _ h (by omega)

/-- A run of the sorting sketch under a well-behaved clock keeps the events spaced. -/
theorem timingInv_sorter_run (polls : List Poll) (last : Nat) (g : Sorter.Globals)
    (h : timingInv last g.currentState g.stateChangeTime g.events) (hc : clockOk last polls) :
    eventsSpaced (Sorter.run g polls).events := by
  induction polls generalizing last g with
  | nil => exact h.1
  | cons p ps ih =>
    obtain ⟨h1, h2, h3, h4⟩ := hc
    exact ih p.stamp (Sorter.loop g p) (timingInv_sorter_step last g p h h1 h2 h3) h4

/-- Writing entry `i` and taking `i + 1` entries appends the written value to the first `i` entries. -/
theorem take_succ_set (l : List Int) (i : Nat) (v : Int) (h : i < l.length) :
    (l.set i v).take (i + 1) = l.take i ++ [v] := by
  induction l generalizing i with
  | nil => simp at h
  | cons a t ih =>
    cases i with
    | zero => simp
    | succ k =>
      simp only [List.length_cons, Nat.add_lt_add_iff_right] at h
      simp [ih k h]

/-- A halted calibration sketch does nothing. -/
theorem loop_of_halted (cap : Nat) (g : Calibrate.Globals) (p : Poll) (h : g.halted = true) :
    Calibrate.loop cap g p = some g := by
  simp [Calibrate.loop, h]

/-- With a full buffer the calibration sketch prints the dump and halts. -/
theorem loop_of_full (cap : Nat) (g : Calibrate.Globals) (p : Poll) (h : g.halted = false)
    (hf : g.sampleIndex ≥ cap) :
    Calibrate.loop cap g p = some { g with
      serial := g.serial ++ Calibrate.dumpLines cap g.primaryPeakReadings
      halted := true } := by
  simp [Calibrate.loop, h, hf]

/-- With room in the buffer the calibration `loop` is `capture`. -/
theorem loop_of_room (cap : Nat) (g : Calibrate.Globals) (p : Poll) (h : g.halted = false)
    (hf : g.sampleIndex < cap) :
    Calibrate.loop cap g p = Calibrate.capture g p := by
  have : ¬ g.sampleIndex ≥ cap := by omega
  simp [Calibrate.loop, h, this]

/-- The timing invariant survives later clock reads in an unchanged state. -/
theorem timingInv_keep (last next : Nat) (st : State) (sct : Nat) (events : List PeakEvent)
    (h : timingInv last st sct events) (hn : last ≤ next) : timingInv next st sct events := by
  cases st
  · exact timingInv_waiting_keep last next sct sct events h hn
  · exact timingInv_recording_keep last next sct events h hn
  · exact timingInv_cooldown_keep last next sct events h hn

/-- The `switch` of the calibration sketch keeps the timing invariant. -/
theorem timingInv_capture (last : Nat) (g g1 : Calibrate.Globals) (p : Poll)
    (h : timingInv last g.currentState g.stateChangeTime g.events)
    (h1 : last ≤ p.now) (h2 : p.now ≤ p.stamp) (h3 : p.stamp < ULONG_RANGE)
    (hl : Calibrate.capture g p = some g1) :
    timingInv p.stamp g1.currentState g1.stateChangeTime g1.events := by
  have hkeep := timingInv_keep last p.stamp _ _ _ h (by omega)
  unfold Calibrate.capture at hl
  cases hc : g.currentState <;> simp only [hc] at h hl hkeep
  · split_ifs at hl
    · cases hl
      exact timingInv_trigger last p.now p.stamp _ _ h h1 h2
    · cases hl; rw [hc]; exact hkeep
  · have hel : elapsedMs p.now g.stateChangeTime = p.now - g.stateChangeTime :=
      elapsedMs_eq_sub _ _ (by have := h.2.1; omega) (by omega)
    rw [hel] at hl
    split_ifs at hl with ha hb hb
    · cases hl; exact hkeep
    · cases hl; rw [hc]; exact hkeep
    · cases hl
      exact timingInv_close last p.now p.stamp _ _ _ h
        (by have := h.2.1; simp only [PEAK_WINDOW_MS] at *; omega) h2
  · have hel : elapsedMs p.now g.stateChangeTime = p.now - g.stateChangeTime :=
      elapsedMs_eq_sub _ _ (by have := h.2.1; omega) (by omega)
    rw [hel] at hl
    split_ifs at hl with ha
    · cases hl
      exact timingInv_exit last p.now p.stamp _ _ _ h
        (by have := h.2.1; simp only [COOLDOWN_TIME_MS] at *; omega) h2
    · cases hl; rw [hc]; exact hkeep

/-- One iteration of the calibration sketch keeps the timing invariant. -/
theorem timingInv_calibrate_step (cap last : Nat) (g g1 : Calibrate.Globals) (p : Poll)
    (h : timingInv last g.currentState g.stateChangeTime g.events)
    (h1 : last ≤ p.now) (h2 : p.now ≤ p.stamp) (h3 : p.stamp < ULONG_RANGE)
    (hl : Calibrate.loop cap g p = some g1) :
    timingInv p.stamp g1.currentState g1.stateChangeTime g1.events := by
  have hkeep := timingInv_keep last p.stamp _ _ _ h (by omega)
  unfold Calibrate.loop at hl
  split_ifs at hl with hh hf
  · cases hl; exact hkeep
  · cases hl; exact hkeep
  · exact timingInv_capture last g g1 p h h1 h2 h3 hl

/-- A run of the calibration sketch under a well-behaved clock keeps the events spaced. -/
theorem timingInv_calibrate_run (cap : Nat) (polls : List Poll) (last : Nat)
    (g g1 : Calibrate.Globals)
    (h : timingInv last g.currentState g.stateChangeTime g.events) (hc : clockOk last polls)
    (hr : Calibrate.run cap g polls = some g1) :
    eventsSpaced g1.events := by
  induction polls generalizing last g with
  | nil =>
    simp only [Calibrate.run, Option.some.injEq] at hr
    subst hr; exact h.1
  | cons p ps ih =>
    obtain ⟨h1, h2, h3, h4⟩ := hc
    simp only [Calibrate.run] at hr
    cases hl : Calibrate.loop cap g p with
    | none => simp [hl] at hr
    | some g2 =>
      simp only [hl] at hr
      exact ih p.stamp g2 (timingInv_calibrate_step cap last g g2 p h h1 h2 h3 hl) h4 hr

/-- The `switch` of the calibration sketch never faults under the buffer invariant, and keeps it. -/
theorem bufferInv_capture (cap : Nat) (g : Calibrate.Globals) (p : Poll)
    (h : Calibrate.bufferInv cap g) (hh : g.halted = false) (hf : g.sampleIndex < cap) :
    ∃ g1, Calibrate.capture g p = some g1 ∧ Calibrate.bufferInv cap g1 := by
  obtain ⟨hlen, h0, hle, htake, hhalt⟩ := h
  unfold Calibrate.capture
  cases hc : g.currentState <;> simp only
  · split_ifs
    · exact ⟨_, rfl, hlen, h0, hle, htake, hhalt⟩
    · exact ⟨_, rfl, hlen, h0, hle, htake, hhalt⟩
  · split_ifs with ha hb hb
    · exact ⟨_, rfl, hlen, h0, hle, htake, hhalt⟩
    · exact ⟨_, rfl, hlen, h0, hle, htake, hhalt⟩
    · refine ⟨_, rfl, by simp [hlen], by simp only; omega, by simp only; omega, ?_, ?_⟩
      · simp only [List.map_append, List.map_cons, List.map_nil]
        rw [← htake]
        have e : (g.sampleIndex + 1).toNat = g.sampleIndex.toNat + 1 := by omega
        rw [e]
        exact take_succ_set _ _ _ (by omega)
      · intro hx; simp only at hx; simp [hh] at hx
    · exfalso; omega
  · split_ifs
    · exact ⟨_, rfl, hlen, h0, hle, htake, hhalt⟩
    · exact ⟨_, rfl, hlen, h0, hle, htake, hhalt⟩

/-- One iteration of the calibration sketch never faults under the buffer invariant, and keeps it. -/
theorem bufferInv_step (cap : Nat) (g : Calibrate.Globals) (p : Poll)
    (h : Calibrate.bufferInv cap g) :
    ∃ g1, Calibrate.loop cap g p = some g1 ∧ Calibrate.bufferInv cap g1 := by
  cases hh : g.halted with
  | true => exact ⟨g, loop_of_halted cap g p hh, h⟩
  | false =>
    by_cases hf : g.sampleIndex ≥ cap
    · refine ⟨_, loop_of_full cap g p hh hf, h.1, h.2.1, h.2.2.1, h.2.2.2.1, fun _ => ?_⟩
      have := h.2.2.1
      simp only; omega
    · rw [loop_of_room cap g p hh (by omega)]
      exact bufferInv_capture cap g p h hh (by omega)

/-- The buffer invariant holds after `setup`. -/
theorem bufferInv_setup (cap : Nat) : Calibrate.bufferInv cap (Calibrate.setup cap) := by
  simp [Calibrate.bufferInv, Calibrate.setup, Calibrate.boot]

/-- A run of the calibration sketch never faults under the buffer invariant, and keeps it. -/
theorem bufferInv_run (cap : Nat) (polls : List Poll) (g : Calibrate.Globals)
    (h : Calibrate.bufferInv cap g) :
    ∃ g1, Calibrate.run cap g polls = some g1 ∧ Calibrate.bufferInv cap g1 := by
  induction polls generalizing g with
  | nil => exact ⟨g, rfl, h⟩
  | cons p ps ih =>
    obtain ⟨g2, hl, hinv⟩ := bufferInv_step cap g p h
    simp only [Calibrate.run, hl]
    exact ih g2 hinv

/-! ## Event spacing -/

/-- The timing invariant holds after `setup` of the sorting sketch. -/
theorem timingInv_sorter_setup (t0 last : Nat) :
    timingInv last (Sorter.setup t0).currentState (Sorter.setup t0).stateChangeTime
      (Sorter.setup t0).events :=
  ⟨List.Pairwise.nil, fun e he => by simp [Sorter.setup, Sorter.boot] at he⟩

/-- The timing invariant holds after `setup` of the calibration sketch. -/
theorem timingInv_calibrate_setup (cap last : Nat) :
    timingInv last (Calibrate.setup cap).currentState (Calibrate.setup cap).stateChangeTime
      (Calibrate.setup cap).events :=
  ⟨List.Pairwise.nil, fun e he => by simp [Calibrate.setup, Calibrate.boot] at he⟩

/-- C1: for every sequence of polls whose clock reads are non-decreasing and do not wrap
(`clockOk first polls`, for any lower bound `first`), any two events of the event log of a
run from `setup`, in either sketch, have completion times at least
`PEAK_WINDOW_MS + COOLDOWN_TIME_MS = 3050` ms apart (so a trigger, its window and the
following cooldown contain at most one event); the calibration run never faults. -/
theorem peak_events_spaced :
    PEAK_WINDOW_MS + COOLDOWN_TIME_MS = 3050 ∧
    (∀ (t0 first : Nat) (polls : List Poll), clockOk first polls →
      (Sorter.run (Sorter.setup t0) polls).events.Pairwise
        (fun a b => a.completedAt + 3050 ≤ b.completedAt)) ∧
    (∀ (cap first : Nat) (polls : List Poll), clockOk first polls →
      ∃ g, Calibrate.run cap (Calibrate.setup cap) polls = some g ∧
        g.events.Pairwise (fun a b => a.completedAt + 3050 ≤ b.completedAt)) := by
  refine ⟨rfl, fun t0 first polls hc => ?_, fun cap first polls hc => ?_⟩
  · exact timingInv_sorter_run polls first _ (timingInv_sorter_setup t0 first) hc
  · obtain ⟨g, hr, _⟩ := bufferInv_run cap polls _ (bufferInv_setup cap)
    exact ⟨g, hr,
      timingInv_calibrate_run cap polls first _ g (timingInv_calibrate_setup cap first) hc hr⟩

/-- Instance of C1: a trigger at 10 ms, window closed at 60 ms, cooldown over at 3060 ms,
a new trigger in the next iteration at 3060 ms, window closed at 3110 ms: two events,
exactly 3050 ms apart. -/
theorem peak_events_spaced_witness :
    clockOk 0 [sampleAt 10 530, sampleAt 20 600, sampleAt 60 0, sampleAt 3060 0,
      sampleAt 3060 530, sampleAt 3110 0] ∧
    (Sorter.run (Sorter.setup 0) [sampleAt 10 530, sampleAt 20 600, sampleAt 60 0,
      sampleAt 3060 0, sampleAt 3060 530, sampleAt 3110 0]).events = [⟨600, 60⟩, ⟨530, 3110⟩] ∧
    (Sorter.run (Sorter.setup 0) [sampleAt 10 530, sampleAt 20 600, sampleAt 60 0,
      sampleAt 3060 0, sampleAt 3060 530, sampleAt 3110 0]).events.Pairwise
        (fun a b => a.completedAt + 3050 ≤ b.completedAt) :=
  ⟨by decide, by decide, peak_events_spaced.2.1 0 0 _ (by decide)⟩

/-! ## Cooldown boundary -/

/-- One iteration of the sorting sketch keeps `currentPeak = 0` outside `RECORDING_PEAK`. -/
theorem sorter_loop_idle_peak (g : Sorter.Globals) (p : Poll)
    (h : g.currentState ≠ State.RECORDING_PEAK → g.currentPeak = 0) :
    (Sorter.loop g p).currentState ≠ State.RECORDING_PEAK → (Sorter.loop g p).currentPeak = 0 := by
  unfold Sorter.loop
  cases hc : g.currentState <;> simp only [hc] at h ⊢
  · split_ifs
    · intro hx; exact absurd rfl hx
    · intro _; exact h (by simp)
  · split_ifs
    · intro hx; exact absurd rfl hx
    · intro hx; exact absurd hc hx
    · intro _; rfl
  · split_ifs
    · intro _; exact h (by simp)
    · intro _; exact h (by simp)

/-- A run of the sorting sketch keeps `currentPeak = 0` outside `RECORDING_PEAK`. -/
theorem sorter_run_idle_peak (polls : List Poll) (g : Sorter.Globals)
    (h : g.currentState ≠ State.RECORDING_PEAK → g.currentPeak = 0) :
    (Sorter.run g polls).currentState ≠ State.RECORDING_PEAK →
      (Sorter.run g polls).currentPeak = 0 := by
  induction polls generalizing g with
  | nil => exact h
  | cons p ps ih => exact ih (Sorter.loop g p) (sorter_loop_idle_peak g p h)

/-- C8: in a Cooldown state entered at clock value `c = stateChangeTime`, a poll at time
`t ≥ c` (no wrap) with `t - c ≥ 3000`, equality included, leaves the machine in
`WAITING_FOR_PEAK` with `currentPeak = 0`, and a poll with `t - c < 3000` leaves the state
as it is. Sorting sketch: for every state reached by a run from `setup` (`currentPeak` is
already 0 during cooldown there). Calibration sketch: for every state in which the
iteration polls a sample, that is, not halted and with room in the buffer; in the other
states `loop` reads no sample at all (its result does not depend on the poll). -/
theorem cooldown_boundary :
    (∀ (t0 : Nat) (polls : List Poll) (p : Poll),
      (Sorter.run (Sorter.setup t0) polls).currentState = State.COOLDOWN →
      (Sorter.run (Sorter.setup t0) polls).stateChangeTime ≤ p.now → p.now < ULONG_RANGE →
      (p.now - (Sorter.run (Sorter.setup t0) polls).stateChangeTime ≥ 3000 →
        Sorter.loop (Sorter.run (Sorter.setup t0) polls) p =
            { Sorter.run (Sorter.setup t0) polls with currentState := State.WAITING_FOR_PEAK } ∧
          (Sorter.loop (Sorter.run (Sorter.setup t0) polls) p).currentPeak = 0) ∧
      (p.now - (Sorter.run (Sorter.setup t0) polls).stateChangeTime < 3000 →
        Sorter.loop (Sorter.run (Sorter.setup t0) polls) p =
          Sorter.run (Sorter.setup t0) polls)) ∧
    (∀ (cap : Nat) (g : Calibrate.Globals) (p : Poll),
      g.currentState = State.COOLDOWN → g.halted = false → g.sampleIndex < cap →
      g.stateChangeTime ≤ p.now → p.now < ULONG_RANGE →
      (p.now - g.stateChangeTime ≥ 3000 →
        Calibrate.loop cap g p =
          some { g with currentState := State.WAITING_FOR_PEAK, currentPeak := 0 }) ∧
      (p.now - g.stateChangeTime < 3000 → Calibrate.loop cap g p = some g)) ∧
    (∀ (cap : Nat) (g : Calibrate.Globals) (p q : Poll),
      g.halted = true ∨ g.sampleIndex ≥ cap → Calibrate.loop cap g p = Calibrate.loop cap g q) := by
  refine ⟨?_, ?_, ?_⟩
  · intro t0 polls p hc hle hlt
    have hz := sorter_run_idle_peak polls (Sorter.setup t0) (fun _ => rfl) (by simp [hc])
    have hel := elapsedMs_eq_sub _ _ hle hlt
    generalize Sorter.run (Sorter.setup t0) polls = g at *
    constructor
    · intro h
      have hx : (elapsedMs p.now g.stateChangeTime ≥ COOLDOWN_TIME_MS) := by
        rw [hel]; exact h
      simp [Sorter.loop, hc, hx, hz]
    · intro h
      have hx : ¬ (elapsedMs p.now g.stateChangeTime ≥ COOLDOWN_TIME_MS) := by
        rw [hel]; simp only [COOLDOWN_TIME_MS]; omega
      simp [Sorter.loop, hc, hx]
  · intro cap g p hc hh hf hle hlt
    have hel := elapsedMs_eq_sub _ _ hle hlt
    rw [loop_of_room cap g p hh hf]
    constructor
    · intro h
      have hx : (elapsedMs p.now g.stateChangeTime ≥ COOLDOWN_TIME_MS) := by
        rw [hel]; exact h
      simp [Calibrate.capture, hc, hx]
    · intro h
      have hx : ¬ (elapsedMs p.now g.stateChangeTime ≥ COOLDOWN_TIME_MS) := by
        rw [hel]; simp only [COOLDOWN_TIME_MS]; omega
      simp [Calibrate.capture, hc, hx]
  · intro cap g p q h
    cases hh : g.halted with
    | true => rw [loop_of_halted cap g p hh, loop_of_halted cap g q hh]
    | false =>
      have hf : g.sampleIndex ≥ cap := by
        rcases h with h | h
        · simp [hh] at h
        · exact h
      rw [loop_of_full cap g p hh hf, loop_of_full cap g q hh hf]

/-- Instance of C8 at the exact boundary: the sorting sketch enters cooldown at 60 ms and is
back in `WAITING_FOR_PEAK` with `currentPeak = 0` after the poll at 3060 ms. -/
theorem cooldown_boundary_witness :
    (Sorter.run (Sorter.setup 0) [sampleAt 10 530, sampleAt 60 0]).currentState =
      State.COOLDOWN ∧
    (Sorter.run (Sorter.setup 0) [sampleAt 10 530, sampleAt 60 0]).stateChangeTime = 60 ∧
    (Sorter.loop (Sorter.run (Sorter.setup 0) [sampleAt 10 530, sampleAt 60 0])
      (sampleAt 3060 700)).currentState = State.WAITING_FOR_PEAK ∧
    (Sorter.loop (Sorter.run (Sorter.setup 0) [sampleAt 10 530, sampleAt 60 0])
      (sampleAt 3060 700)).currentPeak = 0 ∧
    Sorter.loop (Sorter.run (Sorter.setup 0) [sampleAt 10 530, sampleAt 60 0])
      (sampleAt 3059 700) = Sorter.run (Sorter.setup 0) [sampleAt 10 530, sampleAt 60 0] :=
  ⟨by decide, by decide,
    by
      rw [((cooldown_boundary.1 0 [sampleAt 10 530, sampleAt 60 0] (sampleAt 3060 700)
        (by decide) (by decide) (by decide)).1 (by decide)).1],
    ((cooldown_boundary.1 0 [sampleAt 10 530, sampleAt 60 0] (sampleAt 3060 700)
        (by decide) (by decide) (by decide)).1 (by decide)).2,
    (cooldown_boundary.1 0 [sampleAt 10 530, sampleAt 60 0] (sampleAt 3059 700)
        (by decide) (by decide) (by decide)).2 (by decide)⟩

/-! ## Calibration buffer -/

/-- For an array of `maxSamples` entries the dump lists the entries in order between the sentinels. -/
theorem dumpLines_eq (cap : Nat) (l : List Int) (h : l.length = cap) :
    Calibrate.dumpLines cap l =
      [SerialOp.println "\n--- ALL SAMPLES COLLECTED ---"] ++
        ([SerialOp.println "START_DATA_CAPTURE"] ++ l.map SerialOp.printlnInt ++
          [SerialOp.println "END_DATA_CAPTURE"]) := by
  have : (List.range cap).map (fun i => SerialOp.printlnInt (l.getD i 0)) =
      l.map SerialOp.printlnInt := by
    subst h
    apply List.ext_getElem
    · simp
    · intro i h1 h2
      simp at h1
      simp [List.getD_eq_getElem?_getD, h1]
  simp only [Calibrate.dumpLines, this, List.append_assoc]
  rfl

/-- A halted calibration sketch ignores all further polls. -/
theorem run_of_halted (cap : Nat) (more : List Poll) (g : Calibrate.Globals)
    (h : g.halted = true) : Calibrate.run cap g more = some g := by
  induction more with
  | nil => rfl
  | cons p ps ih => simp only [Calibrate.run, loop_of_halted cap g p h]; exact ih

/-- With a full buffer no further poll changes the array, the index, the machine or the log. -/
theorem run_of_full (cap : Nat) (more : List Poll) (g : Calibrate.Globals)
    (hf : g.sampleIndex ≥ cap) :
    ∃ g1, Calibrate.run cap g more = some g1 ∧
      g1.primaryPeakReadings = g.primaryPeakReadings ∧ g1.sampleIndex = g.sampleIndex ∧
      g1.currentState = g.currentState ∧ g1.currentPeak = g.currentPeak ∧
      g1.stateChangeTime = g.stateChangeTime ∧ g1.events = g.events := by
  cases hh : g.halted with
  | true => exact ⟨g, run_of_halted cap more g hh, rfl, rfl, rfl, rfl, rfl, rfl⟩
  | false =>
    cases more with
    | nil => exact ⟨g, rfl, rfl, rfl, rfl, rfl, rfl, rfl⟩
    | cons p ps =>
      simp only [Calibrate.run, loop_of_full cap g p hh hf]
      exact ⟨_, run_of_halted cap ps _ rfl, rfl, rfl, rfl, rfl, rfl, rfl⟩

/-- C9: for every input sequence, the run of the calibration sketch from `setup` never
writes outside the array (the run does not fault), and after it
`0 ≤ sampleIndex ≤ MAX_SAMPLES = 100` with the array still `MAX_SAMPLES` long. The same
holds for every capacity in place of `MAX_SAMPLES`, and once `sampleIndex` equals the
capacity, no further iteration changes the array, the index, the state of the state machine
or the event log. -/
theorem sample_index_bounded :
    (∀ polls : List Poll,
      ∃ g, Calibrate.run Calibrate.MAX_SAMPLES (Calibrate.setup Calibrate.MAX_SAMPLES) polls =
          some g ∧
        g.primaryPeakReadings.length = 100 ∧ 0 ≤ g.sampleIndex ∧ g.sampleIndex ≤ 100) ∧
    (∀ (cap : Nat) (polls : List Poll),
      ∃ g, Calibrate.run cap (Calibrate.setup cap) polls = some g ∧
        g.primaryPeakReadings.length = cap ∧ 0 ≤ g.sampleIndex ∧ g.sampleIndex ≤ cap ∧
        (g.sampleIndex = cap → ∀ more : List Poll,
          ∃ g1, Calibrate.run cap g more = some g1 ∧
            g1.primaryPeakReadings = g.primaryPeakReadings ∧ g1.sampleIndex = g.sampleIndex ∧
            g1.currentState = g.currentState ∧ g1.currentPeak = g.currentPeak ∧
            g1.stateChangeTime = g.stateChangeTime ∧ g1.events = g.events)) := by
  constructor
  · intro polls
    obtain ⟨g, hr, hlen, h0, hle, _, _⟩ :=
      bufferInv_run Calibrate.MAX_SAMPLES polls _ (bufferInv_setup Calibrate.MAX_SAMPLES)
    exact ⟨g, hr, hlen, h0, hle⟩
  · intro cap polls
    obtain ⟨g, hr, hlen, h0, hle, _, _⟩ := bufferInv_run cap polls _ (bufferInv_setup cap)
    exact ⟨g, hr, hlen, h0, hle, fun hf more => run_of_full cap more g (by omega)⟩

/-- C10: (1) in any state that is not halted, whose index has reached the capacity and
whose array has `maxSamples` entries, the iteration prints the banner, then the begin
sentinel, then the array entries one per line in array order, then the end sentinel, and
halts; afterwards no poll changes anything. (2) A run from `setup` never faults and halts
only with a full buffer; once it has filled the buffer, the array entries are exactly the
captured peaks in capture order, `maxSamples` of them, so the next iteration prints the
banner, the begin sentinel, the captured peaks one per line in capture order, the end
sentinel, and halts. -/
theorem dump_format :
    (∀ (cap : Nat) (g : Calibrate.Globals) (p : Poll),
      g.halted = false → g.sampleIndex ≥ cap → g.primaryPeakReadings.length = cap →
      Calibrate.loop cap g p = some { g with
        serial := g.serial ++ ([SerialOp.println "\n--- ALL SAMPLES COLLECTED ---"] ++
          ([SerialOp.println "START_DATA_CAPTURE"] ++
            g.primaryPeakReadings.map SerialOp.printlnInt ++
            [SerialOp.println "END_DATA_CAPTURE"]))
        halted := true } ∧
      ∀ more : List Poll,
        Calibrate.run cap { g with
          serial := g.serial ++ ([SerialOp.println "\n--- ALL SAMPLES COLLECTED ---"] ++
            ([SerialOp.println "START_DATA_CAPTURE"] ++
              g.primaryPeakReadings.map SerialOp.printlnInt ++
              [SerialOp.println "END_DATA_CAPTURE"]))
          halted := true } more = some { g with
          serial := g.serial ++ ([SerialOp.println "\n--- ALL SAMPLES COLLECTED ---"] ++
            ([SerialOp.println "START_DATA_CAPTURE"] ++
              g.primaryPeakReadings.map SerialOp.printlnInt ++
              [SerialOp.println "END_DATA_CAPTURE"]))
          halted := true }) ∧
    (∀ (cap : Nat) (polls : List Poll),
      ∃ g, Calibrate.run cap (Calibrate.setup cap) polls = some g ∧
        g.primaryPeakReadings.length = cap ∧
        (g.halted = true → g.sampleIndex = cap) ∧
        (g.sampleIndex = cap →
          g.primaryPeakReadings = g.events.map PeakEvent.peakMagnitude ∧
          g.events.length = cap ∧
          (g.halted = false → ∀ p : Poll,
            Calibrate.loop cap g p = some { g with
              serial := g.serial ++ ([SerialOp.println "\n--- ALL SAMPLES COLLECTED ---"] ++
                ([SerialOp.println "START_DATA_CAPTURE"] ++
                  g.events.map (fun e => SerialOp.printlnInt e.peakMagnitude) ++
                  [SerialOp.println "END_DATA_CAPTURE"]))
              halted := true }))) := by
  constructor
  · intro cap g p hh hf hlen
    rw [loop_of_full cap g p hh hf, dumpLines_eq cap _ hlen]
    exact ⟨rfl, fun more => run_of_halted cap more _ rfl⟩
  · intro cap polls
    obtain ⟨g, hr, hlen, h0, hle, htake, hhalt⟩ :=
      bufferInv_run cap polls _ (bufferInv_setup cap)
    refine ⟨g, hr, hlen, hhalt, fun hf => ?_⟩
    have e : g.sampleIndex.toNat = g.primaryPeakReadings.length := by omega
    rw [e, List.take_length] at htake
    refine ⟨htake, by rw [← hlen, htake, List.length_map], fun hh p => ?_⟩
    rw [loop_of_full cap g p hh (by omega), dumpLines_eq cap _ hlen, htake, List.map_map]
    rfl

/-! ## The peak of a window -/

/-- Unfolding of `windowMax` on a non-empty window. -/
theorem windowMax_cons (first : Int) (q : Poll) (rest : List Poll) :
    windowMax first (q :: rest) = windowMax (max first q.sensorValue) rest := rfl

/-- Inside the window one iteration of the sorting sketch raises `currentPeak` to the maximum. -/
theorem sorter_loop_track (g : Sorter.Globals) (q : Poll)
    (hc : g.currentState = State.RECORDING_PEAK)
    (h1 : g.stateChangeTime ≤ q.now) (h2 : q.now - g.stateChangeTime < 50)
    (h3 : q.now < ULONG_RANGE) :
    Sorter.loop g q = { g with currentPeak := max g.currentPeak q.sensorValue } := by
  have hel : elapsedMs q.now g.stateChangeTime < PEAK_WINDOW_MS := by
    rw [elapsedMs_eq_sub _ _ h1 h3]; exact h2
  cases g with
  | mk cs cp sct ang sv se ev =>
    simp only at hc hel ⊢
    subst hc
    by_cases hv : q.sensorValue > cp
    · have : max cp q.sensorValue = q.sensorValue := max_eq_right (by omega)
      simp [Sorter.loop, hel, hv, this]
    · have : max cp q.sensorValue = cp := max_eq_left (by omega)
      simp [Sorter.loop, hel, hv, this]

/-- Inside the window a run of the sorting sketch only tracks the maximum. -/
theorem sorter_run_track (mid : List Poll) (g : Sorter.Globals)
    (hc : g.currentState = State.RECORDING_PEAK)
    (h : ∀ q ∈ mid, g.stateChangeTime ≤ q.now ∧ q.now - g.stateChangeTime < 50 ∧
      q.now < ULONG_RANGE) :
    Sorter.run g mid = { g with currentPeak := windowMax g.currentPeak mid } := by
  induction mid generalizing g with
  | nil => rfl
  | cons q rest ih =>
    obtain ⟨h1, h2, h3⟩ := h q (List.mem_cons_self _ _)
    have hstep := sorter_loop_track g q hc h1 h2 h3
    simp only [Sorter.run, List.foldl_cons] at ih ⊢
    rw [hstep, ih { g with currentPeak := max g.currentPeak q.sensorValue } hc
      (fun r hr => h r (List.mem_cons_of_mem _ hr))]
    rfl

/-- Inside the window the calibration `switch` raises `currentPeak` to the maximum. -/
theorem capture_track (g : Calibrate.Globals) (q : Poll)
    (hc : g.currentState = State.RECORDING_PEAK)
    (h1 : g.stateChangeTime ≤ q.now) (h2 : q.now - g.stateChangeTime < 50)
    (h3 : q.now < ULONG_RANGE) :
    Calibrate.capture g q = some { g with currentPeak := max g.currentPeak q.sensorValue } := by
  have hel : elapsedMs q.now g.stateChangeTime < PEAK_WINDOW_MS := by
    rw [elapsedMs_eq_sub _ _ h1 h3]; exact h2
  cases g with
  | mk buf idx cs cp sct se ev hl =>
    simp only at hc hel ⊢
    subst hc
    by_cases hv : q.sensorValue > cp
    · have : max cp q.sensorValue = q.sensorValue := max_eq_right (by omega)
      simp [Calibrate.capture, hel, hv, this]
    · have : max cp q.sensorValue = cp := max_eq_left (by omega)
      simp [Calibrate.capture, hel, hv, this]

/-- Inside the window a run of the calibration sketch only tracks the maximum. -/
theorem calibrate_run_track (cap : Nat) (mid : List Poll) (g : Calibrate.Globals)
    (hc : g.currentState = State.RECORDING_PEAK) (hh : g.halted = false)
    (hf : g.sampleIndex < cap)
    (h : ∀ q ∈ mid, g.stateChangeTime ≤ q.now ∧ q.now - g.stateChangeTime < 50 ∧
      q.now < ULONG_RANGE) :
    Calibrate.run cap g mid = some { g with currentPeak := windowMax g.currentPeak mid } := by
  induction mid generalizing g with
  | nil => rfl
  | cons q rest ih =>
    obtain ⟨h1, h2, h3⟩ := h q (List.mem_cons_self _ _)
    have hstep := capture_track g q hc h1 h2 h3
    simp only [Calibrate.run, loop_of_room cap g q hh hf, hstep]
    rw [ih { g with currentPeak := max g.currentPeak q.sensorValue } hc hh hf
      (fun r hr => h r (List.mem_cons_of_mem _ hr))]
    rfl

/-- A run over a concatenation is a run after a run. -/
theorem sorter_run_append (g : Sorter.Globals) (xs ys : List Poll) :
    Sorter.run g (xs ++ ys) = Sorter.run (Sorter.run g xs) ys := by
  simp [Sorter.run, List.foldl_append]

/-- A calibration run over a concatenation continues from the state after the first part. -/
theorem calibrate_run_append (cap : Nat) (xs ys : List Poll) (g g1 : Calibrate.Globals)
    (h : Calibrate.run cap g xs = some g1) :
    Calibrate.run cap g (xs ++ ys) = Calibrate.run cap g1 ys := by
  induction xs generalizing g with
  | nil =>
    simp only [Calibrate.run, Option.some.injEq] at h
    subst h; rfl
  | cons p ps ih =>
    simp only [List.cons_append, Calibrate.run] at h ⊢
    cases hl : Calibrate.loop cap g p with
    | none => simp [hl] at h
    | some g2 =>
      simp only [hl] at h ⊢
      exact ih g2 h

/-- C2: let the machine be in `WAITING_FOR_PEAK`, let `p0` be a poll at time `t0 = p0.now`
with `sensorValue ≥ 527`, let `mid` be the following polls, all with `t - t0 < 50`, and let
`pc` be the first poll with `t - t0 ≥ 50` (times not before `t0`, no wrap). Then no event is
logged while `p0` and `mid` are processed, and processing `pc` logs exactly one event,
completed at `pc.now`, whose peak is the maximum of the values of `p0` and `mid`; the value
of `pc` plays no part. This holds in the sorting sketch and, while the buffer has room, in
the calibration sketch, where the peak is also stored at `sampleIndex`. -/
theorem window_peak :
    (∀ (g : Sorter.Globals) (p0 : Poll) (mid : List Poll) (pc : Poll),
      g.currentState = State.WAITING_FOR_PEAK → p0.sensorValue ≥ 527 →
      (∀ q ∈ mid, p0.now ≤ q.now ∧ q.now - p0.now < 50) →
      p0.now ≤ pc.now → pc.now - p0.now ≥ 50 → pc.now < ULONG_RANGE →
      (Sorter.run g (p0 :: mid)).events = g.events ∧
      (Sorter.run g (p0 :: mid)).currentState = State.RECORDING_PEAK ∧
      (Sorter.run g (p0 :: mid ++ [pc])).events =
        g.events ++ [⟨windowMax p0.sensorValue mid, pc.now⟩] ∧
      (Sorter.run g (p0 :: mid ++ [pc])).currentState = State.COOLDOWN) ∧
    (∀ (cap : Nat) (g : Calibrate.Globals) (p0 : Poll) (mid : List Poll) (pc : Poll),
      g.currentState = State.WAITING_FOR_PEAK → g.halted = false →
      0 ≤ g.sampleIndex → g.sampleIndex < cap → g.primaryPeakReadings.length = cap →
      p0.sensorValue ≥ 527 →
      (∀ q ∈ mid, p0.now ≤ q.now ∧ q.now - p0.now < 50) →
      p0.now ≤ pc.now → pc.now - p0.now ≥ 50 → pc.now < ULONG_RANGE →
      (∃ g1, Calibrate.run cap g (p0 :: mid) = some g1 ∧ g1.events = g.events ∧
        g1.currentState = State.RECORDING_PEAK) ∧
      (∃ g2, Calibrate.run cap g (p0 :: mid ++ [pc]) = some g2 ∧
        g2.events = g.events ++ [⟨windowMax p0.sensorValue mid, pc.now⟩] ∧
        g2.primaryPeakReadings =
          g.primaryPeakReadings.set g.sampleIndex.toNat (windowMax p0.sensorValue mid) ∧
        g2.currentState = State.COOLDOWN)) := by
  constructor
  · intro g p0 mid pc hc hv hmid hle hge hlt
    have h0 : Sorter.loop g p0 = { g with
        currentPeak := p0.sensorValue
        stateChangeTime := p0.now
        currentState := State.RECORDING_PEAK } := by
      have : p0.sensorValue ≥ TRIGGER_THRESHOLD := hv
      simp [Sorter.loop, hc, this]
    have hrun : Sorter.run g (p0 :: mid) = { g with
        currentPeak := windowMax p0.sensorValue mid
        stateChangeTime := p0.now
        currentState := State.RECORDING_PEAK } := by
      have := sorter_run_track mid (Sorter.loop g p0) (by rw [h0])
        (fun q hq => by
          rw [h0]
          have := hmid q hq
          exact ⟨this.1, this.2, by omega⟩)
      simp only [Sorter.run, List.foldl_cons] at this ⊢
      rw [this, h0]
    have happ : Sorter.run g (p0 :: mid ++ [pc]) = Sorter.loop (Sorter.run g (p0 :: mid)) pc := by
      show Sorter.run g ((p0 :: mid) ++ [pc]) = _
      rw [sorter_run_append]; rfl
    have hel : ¬ (elapsedMs pc.now p0.now < PEAK_WINDOW_MS) := by
      rw [elapsedMs_eq_sub _ _ hle hlt]; simp only [PEAK_WINDOW_MS]; omega
    rw [happ, hrun]
    refine ⟨rfl, rfl, ?_, ?_⟩
    · simp [Sorter.loop, hel]
    · simp [Sorter.loop, hel]
  · intro cap g p0 mid pc hc hh h0i hf hlen hv hmid hle hge hlt
    have h0 : Calibrate.loop cap g p0 = some { g with
        currentPeak := p0.sensorValue
        stateChangeTime := p0.now
        currentState := State.RECORDING_PEAK } := by
      have : p0.sensorValue ≥ TRIGGER_THRESHOLD := hv
      rw [loop_of_room cap g p0 hh hf]
      simp [Calibrate.capture, hc, this]
    have hrun : Calibrate.run cap g (p0 :: mid) = some { g with
        currentPeak := windowMax p0.sensorValue mid
        stateChangeTime := p0.now
        currentState := State.RECORDING_PEAK } := by
      simp only [Calibrate.run, h0]
      exact calibrate_run_track cap mid { g with
          currentPeak := p0.sensorValue
          stateChangeTime := p0.now
          currentState := State.RECORDING_PEAK } rfl hh hf (fun q hq => by
        have := hmid q hq
        exact ⟨this.1, this.2, by omega⟩)
    have hel : ¬ (elapsedMs pc.now p0.now < PEAK_WINDOW_MS) := by
      rw [elapsedMs_eq_sub _ _ hle hlt]; simp only [PEAK_WINDOW_MS]; omega
    refine ⟨⟨_, hrun, rfl, rfl⟩, ?_⟩
    show ∃ g2, Calibrate.run cap g ((p0 :: mid) ++ [pc]) = some g2 ∧ _
    rw [calibrate_run_append cap _ [pc] g _ hrun]
    have hb : 0 ≤ g.sampleIndex ∧ g.sampleIndex < g.primaryPeakReadings.length := by omega
    have hl := loop_of_room cap { g with
        currentPeak := windowMax p0.sensorValue mid
        stateChangeTime := p0.now
        currentState := State.RECORDING_PEAK } pc hh hf
    simp only [Calibrate.run, hl]
    simp [Calibrate.capture, hel, hb]

/-- Instance of C2, the example of the specification: samples every 10 ms from 0 ms with
values 500, 530, 600, 580, 300, 100, 90. The sample at 0 ms leaves the machine waiting, the
window opens at 10 ms, nothing is logged up to 50 ms, and the poll at 60 ms logs the single
event with peak 600. -/
theorem window_peak_witness :
    Sorter.run (Sorter.setup 0) [sampleAt 0 500] = Sorter.setup 0 ∧
    (Sorter.run (Sorter.setup 0) [sampleAt 10 530, sampleAt 20 600, sampleAt 30 580,
      sampleAt 40 300, sampleAt 50 100]).events = [] ∧
    (Sorter.run (Sorter.setup 0) [sampleAt 10 530, sampleAt 20 600, sampleAt 30 580,
      sampleAt 40 300, sampleAt 50 100, sampleAt 60 90]).events = [⟨600, 60⟩] ∧
    (Sorter.run (Sorter.setup 0) [sampleAt 10 530, sampleAt 20 600, sampleAt 30 580,
      sampleAt 40 300, sampleAt 50 100, sampleAt 60 90]).currentState = State.COOLDOWN :=
  have h := window_peak.1 (Sorter.setup 0) (sampleAt 10 530)
    [sampleAt 20 600, sampleAt 30 580, sampleAt 40 300, sampleAt 50 100] (sampleAt 60 90)
    rfl (by decide) (by decide) (by decide) (by decide) (by decide)
  ⟨by decide, h.1, h.2.2.1, h.2.2.2⟩

/-- Instance of C9 with capacity 1: one captured peak fills the buffer, the index is 1, and
no later poll changes the array. -/
theorem sample_index_bounded_witness :
    ∃ g, Calibrate.run 1 (Calibrate.setup 1) [sampleAt 10 530, sampleAt 60 0] = some g ∧
      g.sampleIndex = 1 ∧ g.primaryPeakReadings = [530] ∧
      ∀ more : List Poll, ∃ g1, Calibrate.run 1 g more = some g1 ∧
        g1.primaryPeakReadings = [530] ∧ g1.sampleIndex = 1 := by
  obtain ⟨g, hr, _, _, _, hfrozen⟩ :=
    sample_index_bounded.2 1 [sampleAt 10 530, sampleAt 60 0]
  have hg : Calibrate.run 1 (Calibrate.setup 1) [sampleAt 10 530, sampleAt 60 0] =
      some { Calibrate.setup 1 with
        primaryPeakReadings := [530]
        sampleIndex := 1
        currentState := State.COOLDOWN
        currentPeak := 530
        stateChangeTime := 60
        serial := (Calibrate.setup 1).serial ++ [SerialOp.printlnInt 530]
        events := [⟨530, 60⟩] } := by
    decide
  rw [hg] at hr
  cases hr
  refine ⟨_, hg, rfl, rfl, fun more => ?_⟩
  obtain ⟨g1, h1, h2, h3, _⟩ := hfrozen rfl more
  exact ⟨g1, h1, h2, h3⟩

/-- Instance of C10 with capacity 3. A full array holding 600, 300, 545 is printed as
banner, START, 600, 300, 545, END and the sketch halts; and a run from `setup 3` that
captures the peaks 600, 530, 545 ends with these three values in the array, index 3. -/
theorem dump_format_witness :
    Calibrate.loop 3
        { Calibrate.setup 3 with primaryPeakReadings := [600, 300, 545], sampleIndex := 3 }
        (sampleAt 0 0) =
      some { Calibrate.setup 3 with
        primaryPeakReadings := [600, 300, 545]
        sampleIndex := 3
        serial := (Calibrate.setup 3).serial ++
          [SerialOp.println "\n--- ALL SAMPLES COLLECTED ---",
            SerialOp.println "START_DATA_CAPTURE",
            SerialOp.printlnInt 600, SerialOp.printlnInt 300, SerialOp.printlnInt 545,
            SerialOp.println "END_DATA_CAPTURE"]
        halted := true } ∧
    ∃ g, Calibrate.run 3 (Calibrate.setup 3)
        [sampleAt 10 600, sampleAt 60 0, sampleAt 3060 0, sampleAt 3070 530, sampleAt 3120 0,
          sampleAt 6120 0, sampleAt 6130 545, sampleAt 6180 0] = some g ∧
      g.sampleIndex = 3 ∧ g.halted = false ∧ g.primaryPeakReadings = [600, 530, 545] ∧
      g.events.map PeakEvent.peakMagnitude = [600, 530, 545] := by
  refine ⟨(dump_format.1 3
    { Calibrate.setup 3 with primaryPeakReadings := [600, 300, 545], sampleIndex := 3 }
    (sampleAt 0 0) rfl (by decide) rfl).1, ?_⟩
  obtain ⟨g, hr, _, _, hfull⟩ := dump_format.2 3
    [sampleAt 10 600, sampleAt 60 0, sampleAt 3060 0, sampleAt 3070 530, sampleAt 3120 0,
      sampleAt 6120 0, sampleAt 6130 545, sampleAt 6180 0]
  have hi : (Calibrate.run 3 (Calibrate.setup 3)
      [sampleAt 10 600, sampleAt 60 0, sampleAt 3060 0, sampleAt 3070 530, sampleAt 3120 0,
        sampleAt 6120 0, sampleAt 6130 545, sampleAt 6180 0]).map
      (fun g => (g.sampleIndex, g.halted, g.primaryPeakReadings)) =
      some (3, false, [600, 530, 545]) := by decide
  rw [hr] at hi
  simp only [Option.map_some', Option.some.injEq, Prod.mk.injEq] at hi
  obtain ⟨h1, h2, h3⟩ := hi
  refine ⟨g, hr, h1, h2, h3, ?_⟩
  rw [← (hfull h1).1, h3]

/-! ## Window close and trigger -/

/-- The function `moveSorterFor` leaves the serial log alone. -/
theorem moveSorterFor_serial (g : Sorter.Globals) (m : Sorter.Material) :
    (Sorter.moveSorterFor g m).serial = g.serial := by
  simp only [Sorter.moveSorterFor]; split_ifs <;> rfl

/-- Closing the window in the sorting sketch: the state after the iteration. -/
theorem sorter_loop_close (g : Sorter.Globals) (p : Poll)
    (hc : g.currentState = State.RECORDING_PEAK)
    (he : ¬ elapsedMs p.now g.stateChangeTime < PEAK_WINDOW_MS) :
    Sorter.loop g p =
      { Sorter.moveSorterFor g (Sorter.classifyPeak g.currentPeak) with
        serial := g.serial ++ Sorter.debugLines g.currentPeak (Sorter.classifyPeak g.currentPeak)
        events := g.events ++ [⟨g.currentPeak, p.now⟩]
        stateChangeTime := p.stamp
        currentPeak := 0
        currentState := State.COOLDOWN } := by
  unfold Sorter.loop
  rw [hc]
  simp only [he, if_false, moveSorterFor_serial, moveSorterFor_events]

/-- C11: in the sorting sketch, for every state in `RECORDING_PEAK` and every poll whose
elapsed time (as the sketch computes it) is at least 50 ms, whatever the captured peak, the
next state is `COOLDOWN`; the servo log and the remembered angle are those left by
`moveSorterFor` for the class of the peak, and when the peak classifies as Unknown the
servo log and the remembered angle are unchanged. -/
theorem window_close_enters_cooldown (g : Sorter.Globals) (p : Poll)
    (hc : g.currentState = State.RECORDING_PEAK)
    (he : elapsedMs p.now g.stateChangeTime ≥ PEAK_WINDOW_MS) :
    (Sorter.loop g p).currentState = State.COOLDOWN ∧
    (Sorter.loop g p).servo =
      (Sorter.moveSorterFor g (Sorter.classifyPeak g.currentPeak)).servo ∧
    (Sorter.loop g p).sortCurrentAngle =
      (Sorter.moveSorterFor g (Sorter.classifyPeak g.currentPeak)).sortCurrentAngle ∧
    (Sorter.classifyPeak g.currentPeak = Sorter.Material.MAT_UNKNOWN →
      (Sorter.loop g p).servo = g.servo ∧
      (Sorter.loop g p).sortCurrentAngle = g.sortCurrentAngle) := by
  rw [sorter_loop_close g p hc (by omega)]
  refine ⟨rfl, rfl, rfl, fun hu => ?_⟩
  rw [hu, moveSorterFor_same g Sorter.Material.MAT_UNKNOWN rfl]
  exact ⟨rfl, rfl⟩

/-- Instance of C11: a peak of 700 is above every range; the window opened at 10 ms closes
at 60 ms, the state is `COOLDOWN`, and the servo log still holds only the initial write. -/
theorem window_close_enters_cooldown_witness :
    (Sorter.run (Sorter.setup 0) [sampleAt 10 700]).currentState = State.RECORDING_PEAK ∧
    Sorter.classifyPeak (Sorter.run (Sorter.setup 0) [sampleAt 10 700]).currentPeak =
      Sorter.Material.MAT_UNKNOWN ∧
    (Sorter.loop (Sorter.run (Sorter.setup 0) [sampleAt 10 700]) (sampleAt 60 0)).currentState =
      State.COOLDOWN ∧
    (Sorter.loop (Sorter.run (Sorter.setup 0) [sampleAt 10 700]) (sampleAt 60 0)).servo =
      [100] ∧
    (Sorter.loop (Sorter.run (Sorter.setup 0) [sampleAt 10 700])
      (sampleAt 60 0)).sortCurrentAngle = 100 :=
  have h := window_close_enters_cooldown (Sorter.run (Sorter.setup 0) [sampleAt 10 700])
    (sampleAt 60 0) (by decide) (by decide)
  ⟨by decide, by decide, h.1, (h.2.2.2 (by decide)).1, (h.2.2.2 (by decide)).2⟩

/-- With a capacity of at least one, a buffer that is full means the machine has just
closed a window: the state is `COOLDOWN`. One iteration keeps this. -/
theorem full_cooldown_step (cap : Nat) (g g1 : Calibrate.Globals) (p : Poll)
    (h : g.sampleIndex = cap → g.currentState = State.COOLDOWN)
    (hl : Calibrate.loop cap g p = some g1) :
    g1.sampleIndex = cap → g1.currentState = State.COOLDOWN := by
  cases hh : g.halted with
  | true =>
    rw [loop_of_halted cap g p hh] at hl
    cases hl; exact h
  | false =>
    by_cases hf : g.sampleIndex ≥ cap
    · rw [loop_of_full cap g p hh hf] at hl
      cases hl; exact h
    · rw [loop_of_room cap g p hh (by omega)] at hl
      unfold Calibrate.capture at hl
      cases hc : g.currentState <;> simp only [hc] at hl
      · split_ifs at hl <;> cases hl <;> intro hx <;> (try simp only at hx) <;> omega
      · split_ifs at hl
        · cases hl; intro hx; simp only at hx; omega
        · cases hl; intro hx; omega
        · cases hl; intro _; rfl
      · split_ifs at hl <;> cases hl <;> intro hx <;> (try simp only at hx) <;> omega

/-- With a capacity of at least one, in every state reached from `setup` a full buffer
means the state is `COOLDOWN`. -/
theorem full_cooldown_run (cap : Nat) (polls : List Poll) (g g1 : Calibrate.Globals)
    (h : g.sampleIndex = cap → g.currentState = State.COOLDOWN)
    (hr : Calibrate.run cap g polls = some g1) :
    g1.sampleIndex = cap → g1.currentState = State.COOLDOWN := by
  induction polls generalizing g with
  | nil =>
    simp only [Calibrate.run, Option.some.injEq] at hr
    subst hr; exact h
  | cons p ps ih =>
    simp only [Calibrate.run] at hr
    cases hl : Calibrate.loop cap g p with
    | none => simp [hl] at hr
    | some g2 =>
      simp only [hl] at hr
      exact ih g2 (full_cooldown_step cap g g2 p h hl) hr

/-- C12: in `WAITING_FOR_PEAK`, a poll with `sensorValue ≥ 527` (527 itself and values
above 1023 included) moves the machine to `RECORDING_PEAK` with `stateChangeTime` the time
of the poll and `currentPeak` its value, nothing else changed, no event logged; a poll with
`sensorValue < 527` leaves the state as it is. Sorting sketch: every state. Calibration
sketch: every state that is not halted and has room in the buffer, and with a capacity of
at least one every waiting state reached from `setup` is such a state. -/
theorem idle_trigger :
    (∀ (g : Sorter.Globals) (p : Poll), g.currentState = State.WAITING_FOR_PEAK →
      (p.sensorValue ≥ 527 →
        Sorter.loop g p = { g with
          currentPeak := p.sensorValue
          stateChangeTime := p.now
          currentState := State.RECORDING_PEAK } ∧
        (Sorter.loop g p).events = g.events) ∧
      (p.sensorValue < 527 → Sorter.loop g p = g)) ∧
    (∀ (cap : Nat) (g : Calibrate.Globals) (p : Poll),
      g.currentState = State.WAITING_FOR_PEAK → g.halted = false → g.sampleIndex < cap →
      (p.sensorValue ≥ 527 →
        Calibrate.loop cap g p = some { g with
          currentPeak := p.sensorValue
          stateChangeTime := p.now
          currentState := State.RECORDING_PEAK }) ∧
      (p.sensorValue < 527 → Calibrate.loop cap g p = some g)) ∧
    (∀ (cap : Nat) (polls : List Poll), 1 ≤ cap →
      ∃ g, Calibrate.run cap (Calibrate.setup cap) polls = some g ∧
        (g.currentState = State.WAITING_FOR_PEAK → g.halted = false ∧ g.sampleIndex < cap)) := by
  refine ⟨fun g p hc => ⟨fun hv => ?_, fun hv => ?_⟩,
    fun cap g p hc hh hf => ⟨fun hv => ?_, fun hv => ?_⟩, fun cap polls hcap => ?_⟩
  · have : p.sensorValue ≥ TRIGGER_THRESHOLD := hv
    simp [Sorter.loop, hc, this]
  · have : ¬ p.sensorValue ≥ TRIGGER_THRESHOLD := by
      simp only [TRIGGER_THRESHOLD]; omega
    simp [Sorter.loop, hc, this]
  · have : p.sensorValue ≥ TRIGGER_THRESHOLD := hv
    rw [loop_of_room cap g p hh hf]
    simp [Calibrate.capture, hc, this]
  · have : ¬ p.sensorValue ≥ TRIGGER_THRESHOLD := by
      simp only [TRIGGER_THRESHOLD]; omega
    rw [loop_of_room cap g p hh hf]
    simp [Calibrate.capture, hc, this]
  · obtain ⟨g, hr, _, _, hle, _, hhalt⟩ := bufferInv_run cap polls _ (bufferInv_setup cap)
    have hfc := full_cooldown_run cap polls (Calibrate.setup cap) g
      (fun hx => by
        have : (Calibrate.setup cap).sampleIndex = 0 := rfl
        omega) hr
    refine ⟨g, hr, fun hw => ?_⟩
    have hne : g.sampleIndex ≠ cap := fun hx => by
      rw [hfc hx] at hw; exact absurd hw (by decide)
    refine ⟨?_, by omega⟩
    cases hh : g.halted with
    | false => rfl
    | true => exact absurd (hhalt hh) hne

/-- Instance of C12 after `setup`: the threshold value 527 itself triggers, so does 2000,
which is outside the sensor range, and 526 does not. -/
theorem idle_trigger_witness :
    Sorter.loop (Sorter.setup 0) (sampleAt 7 527) =
      { Sorter.setup 0 with
        currentPeak := 527, stateChangeTime := 7, currentState := State.RECORDING_PEAK } ∧
    Sorter.loop (Sorter.setup 0) (sampleAt 7 2000) =
      { Sorter.setup 0 with
        currentPeak := 2000, stateChangeTime := 7, currentState := State.RECORDING_PEAK } ∧
    Sorter.loop (Sorter.setup 0) (sampleAt 7 526) = Sorter.setup 0 ∧
    Calibrate.loop 100 (Calibrate.setup 100) (sampleAt 7 527) =
      some { Calibrate.setup 100 with
        currentPeak := 527, stateChangeTime := 7, currentState := State.RECORDING_PEAK } :=
  ⟨((idle_trigger.1 (Sorter.setup 0) (sampleAt 7 527) rfl).1 (by decide)).1,
    ((idle_trigger.1 (Sorter.setup 0) (sampleAt 7 2000) rfl).1 (by decide)).1,
    (idle_trigger.1 (Sorter.setup 0) (sampleAt 7 526) rfl).2 (by decide),
    (idle_trigger.2.1 100 (Calibrate.setup 100) (sampleAt 7 527) rfl rfl (by decide)).1
      (by decide)⟩

/-! ## Transitions -/

/-- One iteration of the sorting sketch follows an edge of the state machine, and logs,
reports and acts on a peak exactly when it goes from recording to cooldown. -/
theorem sorter_loop_edges (g : Sorter.Globals) (p : Poll) :
    allowedStep g.currentState (Sorter.loop g p).currentState ∧
    (g.currentState = State.RECORDING_PEAK ∧ (Sorter.loop g p).currentState = State.COOLDOWN →
      (Sorter.loop g p).events = g.events ++ [⟨g.currentPeak, p.now⟩] ∧
      (Sorter.loop g p).serial =
        g.serial ++ Sorter.debugLines g.currentPeak (Sorter.classifyPeak g.currentPeak) ∧
      (Sorter.loop g p).servo =
        (Sorter.moveSorterFor g (Sorter.classifyPeak g.currentPeak)).servo) ∧
    (¬ (g.currentState = State.RECORDING_PEAK ∧
        (Sorter.loop g p).currentState = State.COOLDOWN) →
      (Sorter.loop g p).events = g.events ∧ (Sorter.loop g p).serial = g.serial ∧
      (Sorter.loop g p).servo = g.servo ∧
      (Sorter.loop g p).sortCurrentAngle = g.sortCurrentAngle) := by
  cases hc : g.currentState
  · have hl : Sorter.loop g p = g ∨ Sorter.loop g p = { g with
        currentPeak := p.sensorValue
        stateChangeTime := p.now
        currentState := State.RECORDING_PEAK } := by
      unfold Sorter.loop
      rw [hc]
      simp only
      split_ifs
      · exact Or.inr rfl
      · exact Or.inl rfl
    rcases hl with hl | hl <;> rw [hl] <;> simp [allowedStep, hc]
  · by_cases he : elapsedMs p.now g.stateChangeTime < PEAK_WINDOW_MS
    · have hl : Sorter.loop g p = g ∨
          Sorter.loop g p = { g with currentPeak := p.sensorValue } := by
        unfold Sorter.loop
        rw [hc]
        simp only [he, if_true]
        split_ifs
        · exact Or.inr rfl
        · exact Or.inl rfl
      rcases hl with hl | hl <;> rw [hl] <;> simp [allowedStep, hc]
    · rw [sorter_loop_close g p hc he]
      simp [allowedStep]
  · have hl : Sorter.loop g p = g ∨
        Sorter.loop g p = { g with currentState := State.WAITING_FOR_PEAK } := by
      unfold Sorter.loop
      rw [hc]
      simp only
      split_ifs
      · exact Or.inr rfl
      · exact Or.inl rfl
    rcases hl with hl | hl <;> rw [hl] <;> simp [allowedStep, hc]

/-- One iteration of the calibration sketch that does not fault follows an edge of the
state machine, and logs and stores a peak exactly when it goes from recording to cooldown. -/
theorem calibrate_loop_edges (cap : Nat) (g g1 : Calibrate.Globals) (p : Poll)
    (hl : Calibrate.loop cap g p = some g1) :
    allowedStep g.currentState g1.currentState ∧
    (g.currentState = State.RECORDING_PEAK ∧ g1.currentState = State.COOLDOWN →
      g1.events = g.events ++ [⟨g.currentPeak, p.now⟩] ∧
      g1.primaryPeakReadings = g.primaryPeakReadings.set g.sampleIndex.toNat g.currentPeak ∧
      g1.sampleIndex = g.sampleIndex + 1) ∧
    (¬ (g.currentState = State.RECORDING_PEAK ∧ g1.currentState = State.COOLDOWN) →
      g1.events = g.events ∧ g1.primaryPeakReadings = g.primaryPeakReadings ∧
      g1.sampleIndex = g.sampleIndex) := by
  have hself : allowedStep g.currentState g.currentState := by
    cases g.currentState <;> simp [allowedStep]
  have hsame : ¬ (g.currentState = State.RECORDING_PEAK ∧ g.currentState = State.COOLDOWN) := by
    rintro ⟨h1, h2⟩
    rw [h1] at h2
    exact absurd h2 (by decide)
  cases hh : g.halted with
  | true =>
    rw [loop_of_halted cap g p hh] at hl
    cases hl
    exact ⟨hself, fun h => absurd h hsame, fun _ => ⟨rfl, rfl, rfl⟩⟩
  | false =>
    by_cases hf : g.sampleIndex ≥ cap
    · rw [loop_of_full cap g p hh hf] at hl
      cases hl
      exact ⟨hself, fun h => absurd h hsame, fun _ => ⟨rfl, rfl, rfl⟩⟩
    · rw [loop_of_room cap g p hh (by omega)] at hl
      unfold Calibrate.capture at hl
      cases hc : g.currentState <;> rw [hc] at hl <;> simp only at hl
      · split_ifs at hl <;> cases hl <;> simp [allowedStep, hc]
      · split_ifs at hl <;> cases hl <;> simp [allowedStep, hc]
      · split_ifs at hl <;> cases hl <;> simp [allowedStep, hc]

/-- C13: one iteration changes the state only along waiting to waiting, waiting to
recording, recording to recording, recording to cooldown, cooldown to cooldown or cooldown
to waiting (`allowedStep`), starting from waiting after `setup`. An event is logged (sorting
sketch: with the debug report and the servo handled by `moveSorterFor`; calibration sketch:
with the peak stored and the index advanced) when the iteration goes from recording to
cooldown, and on every other iteration the event log, and the servo and report or the array
and index, are unchanged. So a state of `COOLDOWN` after an iteration was `COOLDOWN` before
it or was entered from `RECORDING_PEAK` with an event. Sorting sketch: every state;
calibration sketch: every state reached from `setup`, where no iteration faults. -/
theorem transitions_follow_edges :
    (∀ t0 : Nat, (Sorter.setup t0).currentState = State.WAITING_FOR_PEAK) ∧
    (∀ cap : Nat, (Calibrate.setup cap).currentState = State.WAITING_FOR_PEAK) ∧
    (∀ (g : Sorter.Globals) (p : Poll),
      allowedStep g.currentState (Sorter.loop g p).currentState ∧
      (g.currentState = State.RECORDING_PEAK ∧
          (Sorter.loop g p).currentState = State.COOLDOWN →
        (Sorter.loop g p).events = g.events ++ [⟨g.currentPeak, p.now⟩] ∧
        (Sorter.loop g p).serial =
          g.serial ++ Sorter.debugLines g.currentPeak (Sorter.classifyPeak g.currentPeak) ∧
        (Sorter.loop g p).servo =
          (Sorter.moveSorterFor g (Sorter.classifyPeak g.currentPeak)).servo) ∧
      (¬ (g.currentState = State.RECORDING_PEAK ∧
          (Sorter.loop g p).currentState = State.COOLDOWN) →
        (Sorter.loop g p).events = g.events ∧ (Sorter.loop g p).serial = g.serial ∧
        (Sorter.loop g p).servo = g.servo ∧
        (Sorter.loop g p).sortCurrentAngle = g.sortCurrentAngle) ∧
      ((Sorter.loop g p).currentState = State.COOLDOWN →
        g.currentState = State.COOLDOWN ∨ g.currentState = State.RECORDING_PEAK)) ∧
    (∀ (cap : Nat) (polls : List Poll) (p : Poll),
      ∃ g g1, Calibrate.run cap (Calibrate.setup cap) polls = some g ∧
        Calibrate.loop cap g p = some g1 ∧
        allowedStep g.currentState g1.currentState ∧
        (g.currentState = State.RECORDING_PEAK ∧ g1.currentState = State.COOLDOWN →
          g1.events = g.events ++ [⟨g.currentPeak, p.now⟩] ∧
          g1.primaryPeakReadings =
            g.primaryPeakReadings.set g.sampleIndex.toNat g.currentPeak ∧
          g1.sampleIndex = g.sampleIndex + 1) ∧
        (¬ (g.currentState = State.RECORDING_PEAK ∧ g1.currentState = State.COOLDOWN) →
          g1.events = g.events ∧ g1.primaryPeakReadings = g.primaryPeakReadings ∧
          g1.sampleIndex = g.sampleIndex) ∧
        (g1.currentState = State.COOLDOWN →
          g.currentState = State.COOLDOWN ∨ g.currentState = State.RECORDING_PEAK)) := by
  refine ⟨fun _ => rfl, fun _ => rfl, fun g p => ?_, fun cap polls p => ?_⟩
  · obtain ⟨h1, h2, h3⟩ := sorter_loop_edges g p
    refine ⟨h1, h2, h3, fun hcd => ?_⟩
    rw [hcd] at h1
    rcases h1 with h | h | h | h | h | h
    all_goals first
      | exact Or.inl h.1
      | exact Or.inr h.1
      | exact absurd h.2 (by decide)
  · obtain ⟨g, hr, hinv⟩ := bufferInv_run cap polls _ (bufferInv_setup cap)
    obtain ⟨g1, hl, _⟩ := bufferInv_step cap g p hinv
    obtain ⟨h1, h2, h3⟩ := calibrate_loop_edges cap g g1 p hl
    refine ⟨g, g1, hr, hl, h1, h2, h3, fun hcd => ?_⟩
    rw [hcd] at h1
    rcases h1 with h | h | h | h | h | h
    all_goals first
      | exact Or.inl h.1
      | exact Or.inr h.1
      | exact absurd h.2 (by decide)

/-- Instance of C13: the iteration that closes the window opened at 10 ms goes from
recording to cooldown and logs the event, and the iteration before it logs nothing. -/
theorem transitions_follow_edges_witness :
    (Sorter.loop (Sorter.run (Sorter.setup 0) [sampleAt 10 530]) (sampleAt 60 0)).events =
      [⟨530, 60⟩] ∧
    (Sorter.loop (Sorter.setup 0) (sampleAt 10 530)).events = [] :=
  ⟨((transitions_follow_edges.2.2.1 (Sorter.run (Sorter.setup 0) [sampleAt 10 530])
      (sampleAt 60 0)).2.1 (by decide)).1,
    ((transitions_follow_edges.2.2.1 (Sorter.setup 0) (sampleAt 10 530)).2.2.1
      (by decide)).1⟩

/-! ## Cooldown ignores the samples -/

/-- In `COOLDOWN` the sorting sketch either stays as it is or returns to waiting. -/
theorem sorter_loop_cooldown (g : Sorter.Globals) (p : Poll)
    (hc : g.currentState = State.COOLDOWN) :
    Sorter.loop g p =
      if elapsedMs p.now g.stateChangeTime ≥ COOLDOWN_TIME_MS then
        { g with currentState := State.WAITING_FOR_PEAK }
      else g := by
  unfold Sorter.loop
  rw [hc]

/-- In `COOLDOWN`, with room in the buffer, the calibration sketch either stays as it is or
returns to waiting with `currentPeak` reset. -/
theorem capture_cooldown (g : Calibrate.Globals) (p : Poll)
    (hc : g.currentState = State.COOLDOWN) :
    Calibrate.capture g p =
      if elapsedMs p.now g.stateChangeTime ≥ COOLDOWN_TIME_MS then
        some { g with currentState := State.WAITING_FOR_PEAK, currentPeak := 0 }
      else some g := by
  unfold Calibrate.capture
  rw [hc]

/-- C14: in `COOLDOWN`, two polls read at the same time give the same next state whatever
their sensor values, in both sketches; the iteration logs no event, writes nothing to the
servo (sorting) or to the array (calibration), and never ends in `RECORDING_PEAK`; while
the elapsed time the sketch computes is below 3000 ms the machine stays in `COOLDOWN`. -/
theorem cooldown_ignores_samples :
    (∀ (g : Sorter.Globals) (p q : Poll),
      g.currentState = State.COOLDOWN → p.now = q.now →
      Sorter.loop g p = Sorter.loop g q ∧
      (Sorter.loop g p).events = g.events ∧ (Sorter.loop g p).servo = g.servo ∧
      (Sorter.loop g p).sortCurrentAngle = g.sortCurrentAngle ∧
      (Sorter.loop g p).currentState ≠ State.RECORDING_PEAK ∧
      (elapsedMs p.now g.stateChangeTime < 3000 → Sorter.loop g p = g)) ∧
    (∀ (cap : Nat) (g : Calibrate.Globals) (p q : Poll),
      g.currentState = State.COOLDOWN → p.now = q.now →
      Calibrate.loop cap g p = Calibrate.loop cap g q ∧
      ∃ g1, Calibrate.loop cap g p = some g1 ∧ g1.events = g.events ∧
        g1.primaryPeakReadings = g.primaryPeakReadings ∧ g1.sampleIndex = g.sampleIndex ∧
        g1.currentState ≠ State.RECORDING_PEAK ∧
        (elapsedMs p.now g.stateChangeTime < 3000 → g1.currentState = State.COOLDOWN)) := by
  constructor
  · intro g p q hc hpq
    rw [sorter_loop_cooldown g p hc, sorter_loop_cooldown g q hc, hpq]
    refine ⟨rfl, ?_⟩
    split_ifs with h
    · exact ⟨rfl, rfl, rfl, by simp, fun hx => by
        simp only [COOLDOWN_TIME_MS] at h; omega⟩
    · exact ⟨rfl, rfl, rfl, by simp [hc], fun _ => rfl⟩
  · intro cap g p q hc hpq
    cases hh : g.halted with
    | true =>
      rw [loop_of_halted cap g p hh, loop_of_halted cap g q hh]
      exact ⟨rfl, g, rfl, rfl, rfl, rfl, by simp [hc], fun _ => hc⟩
    | false =>
      by_cases hf : g.sampleIndex ≥ cap
      · rw [loop_of_full cap g p hh hf, loop_of_full cap g q hh hf]
        exact ⟨rfl, _, rfl, rfl, rfl, rfl, by simp [hc], fun _ => hc⟩
      · rw [loop_of_room cap g p hh (by omega), loop_of_room cap g q hh (by omega),
          capture_cooldown g p hc, capture_cooldown g q hc, hpq]
        refine ⟨rfl, ?_⟩
        split_ifs with h
        · exact ⟨_, rfl, rfl, rfl, rfl, by simp, fun hx => by
            simp only [COOLDOWN_TIME_MS] at h; omega⟩
        · exact ⟨_, rfl, rfl, rfl, rfl, by simp [hc], fun _ => hc⟩

/-- Instance of C14: 100 ms into the cooldown entered at 60 ms, a reading of 0 and a
reading of 1023 leave the sorting sketch in the same state, still in cooldown. -/
theorem cooldown_ignores_samples_witness :
    (Sorter.run (Sorter.setup 0) [sampleAt 10 530, sampleAt 60 0]).currentState =
      State.COOLDOWN ∧
    Sorter.loop (Sorter.run (Sorter.setup 0) [sampleAt 10 530, sampleAt 60 0])
        (sampleAt 160 0) =
      Sorter.loop (Sorter.run (Sorter.setup 0) [sampleAt 10 530, sampleAt 60 0])
        (sampleAt 160 1023) ∧
    Sorter.loop (Sorter.run (Sorter.setup 0) [sampleAt 10 530, sampleAt 60 0])
        (sampleAt 160 1023) =
      Sorter.run (Sorter.setup 0) [sampleAt 10 530, sampleAt 60 0] :=
  ⟨by decide,
    (cooldown_ignores_samples.1 (Sorter.run (Sorter.setup 0) [sampleAt 10 530, sampleAt 60 0])
      (sampleAt 160 0) (sampleAt 160 1023) (by decide) rfl).1,
    (cooldown_ignores_samples.1 (Sorter.run (Sorter.setup 0) [sampleAt 10 530, sampleAt 60 0])
      (sampleAt 160 1023) (sampleAt 160 0) (by decide) rfl).2.2.2.2.2 (by decide)⟩

/-! ## Order of the range tests -/

/-- The three tests of `classifyPeak` are the range lookup in the order Metal, Glass,
Plastic. -/
theorem classifyPeak_eq_inOrder (v : Int) :
    Sorter.classifyPeak v =
      Sorter.classifyInOrder
        [Sorter.METAL_RANGE, Sorter.GLASS_RANGE, Sorter.PLASTIC_RANGE] v := by
  simp only [Sorter.classifyPeak, Sorter.classifyInOrder, Sorter.Range.contains,
    Sorter.METAL_RANGE, Sorter.GLASS_RANGE, Sorter.PLASTIC_RANGE]

/-- The three configured ranges are pairwise disjoint. -/
theorem ranges_disjoint :
    List.Pairwise (fun r s : Sorter.Range => ∀ v : Int, ¬ (r.contains v ∧ s.contains v))
      [Sorter.METAL_RANGE, Sorter.GLASS_RANGE, Sorter.PLASTIC_RANGE] := by
  simp only [List.pairwise_cons, List.mem_cons, List.mem_singleton, List.not_mem_nil,
    forall_eq_or_imp, forall_eq, Sorter.Range.contains, Sorter.METAL_RANGE,
    Sorter.GLASS_RANGE, Sorter.PLASTIC_RANGE]
  refine ⟨⟨fun v => by omega, fun v => by omega, ?_⟩, ⟨fun v => by omega, ?_⟩, ?_, ?_⟩
  all_goals first
    | exact List.Pairwise.nil
    | (intro a ha; exact absurd ha (by simp))

/-- The range lookup over pairwise disjoint ranges does not depend on the order of the
tests. -/
theorem classifyInOrder_perm (l1 l2 : List Sorter.Range) (hp : List.Perm l1 l2)
    (hd : List.Pairwise
      (fun r s : Sorter.Range => ∀ v : Int, ¬ (r.contains v ∧ s.contains v)) l1)
    (v : Int) : Sorter.classifyInOrder l1 v = Sorter.classifyInOrder l2 v := by
  induction hp with
  | nil => rfl
  | cons x _ ih =>
    simp only [Sorter.classifyInOrder]
    rw [ih (List.Pairwise.of_cons hd)]
  | swap x y l =>
    simp only [Sorter.classifyInOrder]
    have hxy := List.rel_of_pairwise_cons hd (List.mem_cons_self x l) v
    by_cases hx : x.contains v <;> by_cases hy : y.contains v <;> simp [hx, hy]
    exact absurd ⟨hy, hx⟩ hxy
  | trans h12 _ ih1 ih2 =>
    rw [ih1 hd]
    exact ih2 ((h12.pairwise_iff (fun h v hv => h v ⟨hv.2, hv.1⟩)).1 hd)

/-- C15: the ranges `[555, 650]`, `[540, 554]`, `[527, 539]` are pairwise disjoint;
`classifyPeak` is the range lookup that tests them in the order Metal, Glass, Plastic; the
lookup in any other order of the same three ranges gives the same category for every
integer; and an integer lies in at most one of the three ranges. -/
theorem classify_order_independent :
    List.Pairwise (fun r s : Sorter.Range => ∀ v : Int, ¬ (r.contains v ∧ s.contains v))
      [Sorter.METAL_RANGE, Sorter.GLASS_RANGE, Sorter.PLASTIC_RANGE] ∧
    (∀ v : Int, Sorter.classifyPeak v =
      Sorter.classifyInOrder
        [Sorter.METAL_RANGE, Sorter.GLASS_RANGE, Sorter.PLASTIC_RANGE] v) ∧
    (∀ order : List Sorter.Range,
      List.Perm order [Sorter.METAL_RANGE, Sorter.GLASS_RANGE, Sorter.PLASTIC_RANGE] →
      ∀ v : Int, Sorter.classifyInOrder order v = Sorter.classifyPeak v) ∧
    (∀ (v : Int) (r s : Sorter.Range),
      r ∈ [Sorter.METAL_RANGE, Sorter.GLASS_RANGE, Sorter.PLASTIC_RANGE] →
      s ∈ [Sorter.METAL_RANGE, Sorter.GLASS_RANGE, Sorter.PLASTIC_RANGE] →
      r.contains v → s.contains v → r = s) := by
  refine ⟨ranges_disjoint, classifyPeak_eq_inOrder, fun order hp v => ?_, fun v r s hr hs => ?_⟩
  · rw [classifyPeak_eq_inOrder]
    exact (classifyInOrder_perm _ _ hp.symm ranges_disjoint v).symm
  · simp only [List.mem_cons, List.mem_singleton, List.not_mem_nil, or_false] at hr hs
    rcases hr with rfl | rfl | rfl <;> rcases hs with rfl | rfl | rfl <;> intro h1 h2 <;>
      first
        | rfl
        | (exfalso
           simp only [Sorter.Range.contains, Sorter.METAL_RANGE, Sorter.GLASS_RANGE,
             Sorter.PLASTIC_RANGE] at h1 h2
           omega)

/-- Instance of C15: testing Plastic first, then Metal, then Glass classifies 600, 545,
530 and 10 as `classifyPeak` does. -/
theorem classify_order_independent_witness :
    Sorter.classifyInOrder
        [Sorter.PLASTIC_RANGE, Sorter.METAL_RANGE, Sorter.GLASS_RANGE] 600 =
      Sorter.Material.MAT_METAL ∧
    Sorter.classifyInOrder
        [Sorter.PLASTIC_RANGE, Sorter.METAL_RANGE, Sorter.GLASS_RANGE] 545 =
      Sorter.Material.MAT_GLASS ∧
    Sorter.classifyInOrder
        [Sorter.PLASTIC_RANGE, Sorter.METAL_RANGE, Sorter.GLASS_RANGE] 530 =
      Sorter.Material.MAT_PLASTIC ∧
    Sorter.classifyInOrder
        [Sorter.PLASTIC_RANGE, Sorter.METAL_RANGE, Sorter.GLASS_RANGE] 10 =
      Sorter.Material.MAT_UNKNOWN :=
  have hp : List.Perm [Sorter.PLASTIC_RANGE, Sorter.METAL_RANGE, Sorter.GLASS_RANGE]
      [Sorter.METAL_RANGE, Sorter.GLASS_RANGE, Sorter.PLASTIC_RANGE] :=
    (List.Perm.swap _ _ _).trans (List.Perm.cons _ (List.Perm.swap _ _ _))
  ⟨classify_order_independent.2.2.1 _ hp 600, classify_order_independent.2.2.1 _ hp 545,
    classify_order_independent.2.2.1 _ hp 530, classify_order_independent.2.2.1 _ hp 10⟩

/-! ## Magnitude of the captured peaks -/

/-- The magnitude invariant survives one more poll seen when the machine is left alone. -/
theorem peakInv_mono (seen : List Poll) (p : Poll) (st : State) (peak : Int)
    (events : List PeakEvent) (h : peakInv seen st peak events) :
    peakInv (seen ++ [p]) st peak events := by
  refine ⟨fun hs => ?_, fun e he => ?_⟩
  · obtain ⟨h1, q, hq, hq2⟩ := h.1 hs
    exact ⟨h1, q, List.mem_append_left _ hq, hq2⟩
  · obtain ⟨h1, q, hq, hq2⟩ := h.2 e he
    exact ⟨h1, q, List.mem_append_left _ hq, hq2⟩

/-- Outside `RECORDING_PEAK` the magnitude invariant does not constrain `currentPeak`. -/
theorem peakInv_leave (seen : List Poll) (p : Poll) (st st1 : State) (peak peak1 : Int)
    (events : List PeakEvent) (h : peakInv seen st peak events)
    (hs : st1 ≠ State.RECORDING_PEAK) : peakInv (seen ++ [p]) st1 peak1 events :=
  ⟨fun hx => absurd hx hs, (peakInv_mono seen p st peak events h).2⟩

/-- Starting or raising the running peak with the value of the current poll, at least the
threshold, keeps the magnitude invariant. -/
theorem peakInv_take (seen : List Poll) (p : Poll) (st st1 : State) (peak : Int)
    (events : List PeakEvent) (h : peakInv seen st peak events)
    (hv : TRIGGER_THRESHOLD ≤ p.sensorValue) :
    peakInv (seen ++ [p]) st1 p.sensorValue events :=
  ⟨fun _ => ⟨hv, p, by simp, rfl⟩, (peakInv_mono seen p st peak events h).2⟩

/-- Logging the running peak when the window closes keeps the magnitude invariant. -/
theorem peakInv_close (seen : List Poll) (p : Poll) (peak peak1 : Int) (t : Nat)
    (events : List PeakEvent) (h : peakInv seen State.RECORDING_PEAK peak events) :
    peakInv (seen ++ [p]) State.COOLDOWN peak1 (events ++ [⟨peak, t⟩]) := by
  have hm := peakInv_mono seen p _ _ _ h
  refine ⟨fun hx => absurd hx (by decide), fun e he => ?_⟩
  simp only [List.mem_append, List.mem_singleton] at he
  rcases he with he | rfl
  · exact hm.2 e he
  · exact hm.1 rfl

/-- One iteration of the sorting sketch keeps the magnitude invariant. -/
theorem peakInv_sorter_step (seen : List Poll) (g : Sorter.Globals) (p : Poll)
    (h : peakInv seen g.currentState g.currentPeak g.events) :
    peakInv (seen ++ [p]) (Sorter.loop g p).currentState (Sorter.loop g p).currentPeak
      (Sorter.loop g p).events := by
  cases hc : g.currentState
  · unfold Sorter.loop
    rw [hc]
    simp only
    split_ifs with hv
    · exact peakInv_take seen p _ _ _ _ h hv
    · exact peakInv_mono seen p _ _ _ h
  · by_cases he : elapsedMs p.now g.stateChangeTime < PEAK_WINDOW_MS
    · unfold Sorter.loop
      rw [hc]
      simp only [he, if_true]
      split_ifs with hv
      · rw [hc] at h
        exact peakInv_take seen p _ _ _ _ h (by have := (h.1 rfl).1; omega)
      · exact peakInv_mono seen p _ _ _ h
    · rw [sorter_loop_close g p hc he]
      rw [hc] at h
      exact peakInv_close seen p _ _ _ _ h
  · rw [sorter_loop_cooldown g p hc]
    split_ifs
    · exact peakInv_leave seen p _ _ _ _ _ h (by simp)
    · exact peakInv_mono seen p _ _ _ h

/-- A run of the sorting sketch keeps the magnitude invariant. -/
theorem peakInv_sorter_run (polls seen : List Poll) (g : Sorter.Globals)
    (h : peakInv seen g.currentState g.currentPeak g.events) :
    peakInv (seen ++ polls) (Sorter.run g polls).currentState
      (Sorter.run g polls).currentPeak (Sorter.run g polls).events := by
  induction polls generalizing seen g with
  | nil => simpa [Sorter.run] using h
  | cons p ps ih =>
    have := ih (seen ++ [p]) (Sorter.loop g p) (peakInv_sorter_step seen g p h)
    simpa [Sorter.run] using this

/-- One iteration of the calibration sketch keeps the magnitude invariant. -/
theorem peakInv_calibrate_step (cap : Nat) (seen : List Poll) (g g1 : Calibrate.Globals)
    (p : Poll) (h : peakInv seen g.currentState g.currentPeak g.events)
    (hl : Calibrate.loop cap g p = some g1) :
    peakInv (seen ++ [p]) g1.currentState g1.currentPeak g1.events := by
  cases hh : g.halted with
  | true =>
    rw [loop_of_halted cap g p hh] at hl
    cases hl; exact peakInv_mono seen p _ _ _ h
  | false =>
    by_cases hf : g.sampleIndex ≥ cap
    · rw [loop_of_full cap g p hh hf] at hl
      cases hl; exact peakInv_mono seen p _ _ _ h
    · rw [loop_of_room cap g p hh (by omega)] at hl
      cases hc : g.currentState
      · unfold Calibrate.capture at hl
        rw [hc] at hl
        simp only at hl
        split_ifs at hl with hv
        · cases hl; exact peakInv_take seen p _ _ _ _ h hv
        · cases hl; exact peakInv_mono seen p _ _ _ h
      · unfold Calibrate.capture at hl
        rw [hc] at hl h
        simp only at hl
        split_ifs at hl with he hv hb
        · cases hl
          exact peakInv_take seen p _ _ _ _ h (by have := (h.1 rfl).1; omega)
        · cases hl; rw [hc]; exact peakInv_mono seen p _ _ _ h
        · cases hl; exact peakInv_close seen p _ _ _ _ h
      · rw [capture_cooldown g p hc] at hl
        split_ifs at hl
        · cases hl; exact peakInv_leave seen p _ _ _ _ _ h (by simp)
        · cases hl; exact peakInv_mono seen p _ _ _ h

/-- A run of the calibration sketch keeps the magnitude invariant. -/
theorem peakInv_calibrate_run (cap : Nat) (polls seen : List Poll)
    (g g1 : Calibrate.Globals) (h : peakInv seen g.currentState g.currentPeak g.events)
    (hr : Calibrate.run cap g polls = some g1) :
    peakInv (seen ++ polls) g1.currentState g1.currentPeak g1.events := by
  induction polls generalizing seen g with
  | nil =>
    simp only [Calibrate.run, Option.some.injEq] at hr
    subst hr; simpa using h
  | cons p ps ih =>
    simp only [Calibrate.run] at hr
    cases hl : Calibrate.loop cap g p with
    | none => simp [hl] at hr
    | some g2 =>
      simp only [hl] at hr
      have := ih (seen ++ [p]) g2 (peakInv_calibrate_step cap seen g g2 p h hl) hr
      simpa using this

/-- The magnitude invariant holds after `setup` of the sorting sketch. -/
theorem peakInv_sorter_setup (t0 : Nat) :
    peakInv [] (Sorter.setup t0).currentState (Sorter.setup t0).currentPeak
      (Sorter.setup t0).events :=
  ⟨fun hx => absurd hx (by simp [Sorter.setup]),
    fun e he => by simp [Sorter.setup, Sorter.boot] at he⟩

/-- The magnitude invariant holds after `setup` of the calibration sketch. -/
theorem peakInv_calibrate_setup (cap : Nat) :
    peakInv [] (Calibrate.setup cap).currentState (Calibrate.setup cap).currentPeak
      (Calibrate.setup cap).events :=
  ⟨fun hx => absurd hx (by simp [Calibrate.setup, Calibrate.boot]),
    fun e he => by simp [Calibrate.setup, Calibrate.boot] at he⟩

/-- A value of at least 527 is classified Unknown exactly when it is above 650. -/
theorem classify_unknown_iff (v : Int) (h : 527 ≤ v) :
    Sorter.classifyPeak v = Sorter.Material.MAT_UNKNOWN ↔ 650 < v := by
  unfold Sorter.classifyPeak
  split_ifs <;> simp <;> omega

/-- C16: for every run from `setup`, in either sketch, every logged peak is at least
`TRIGGER_THRESHOLD = 527` and is the value of one of the polls processed, hence at most any
bound on the values seen. In the sorting sketch the value handed to `classifyPeak` when a
window closes (`currentPeak` while recording), like every logged peak, is at least 527, so
it is classified Unknown exactly when it exceeds 650: no peak below the Plastic range is
ever classified. -/
theorem emitted_peaks_bounded :
    (∀ (t0 : Nat) (polls : List Poll), ∀ e ∈ (Sorter.run (Sorter.setup t0) polls).events,
      527 ≤ e.peakMagnitude ∧ (∃ p ∈ polls, e.peakMagnitude = p.sensorValue) ∧
      (∀ bound : Int, (∀ p ∈ polls, p.sensorValue ≤ bound) → e.peakMagnitude ≤ bound) ∧
      (Sorter.classifyPeak e.peakMagnitude = Sorter.Material.MAT_UNKNOWN ↔
        650 < e.peakMagnitude)) ∧
    (∀ (t0 : Nat) (polls : List Poll),
      (Sorter.run (Sorter.setup t0) polls).currentState = State.RECORDING_PEAK →
      527 ≤ (Sorter.run (Sorter.setup t0) polls).currentPeak ∧
      (Sorter.classifyPeak (Sorter.run (Sorter.setup t0) polls).currentPeak =
          Sorter.Material.MAT_UNKNOWN ↔
        650 < (Sorter.run (Sorter.setup t0) polls).currentPeak)) ∧
    (∀ (cap : Nat) (polls : List Poll),
      ∃ g, Calibrate.run cap (Calibrate.setup cap) polls = some g ∧
        ∀ e ∈ g.events,
          527 ≤ e.peakMagnitude ∧ (∃ p ∈ polls, e.peakMagnitude = p.sensorValue) ∧
          (∀ bound : Int, (∀ p ∈ polls, p.sensorValue ≤ bound) →
            e.peakMagnitude ≤ bound)) := by
  refine ⟨fun t0 polls e he => ?_, fun t0 polls hc => ?_, fun cap polls => ?_⟩
  · have h := peakInv_sorter_run polls [] _ (peakInv_sorter_setup t0)
    simp only [List.nil_append] at h
    obtain ⟨h1, q, hq, hq2⟩ := h.2 e he
    exact ⟨h1, ⟨q, hq, hq2⟩, fun bound hb => hq2 ▸ hb q hq, classify_unknown_iff _ h1⟩
  · have h := peakInv_sorter_run polls [] _ (peakInv_sorter_setup t0)
    obtain ⟨h1, _⟩ := h.1 hc
    exact ⟨h1, classify_unknown_iff _ h1⟩
  · obtain ⟨g, hr, _⟩ := bufferInv_run cap polls _ (bufferInv_setup cap)
    have h := peakInv_calibrate_run cap polls [] _ g (peakInv_calibrate_setup cap) hr
    simp only [List.nil_append] at h
    refine ⟨g, hr, fun e he => ?_⟩
    obtain ⟨h1, q, hq, hq2⟩ := h.2 e he
    exact ⟨h1, ⟨q, hq, hq2⟩, fun bound hb => hq2 ▸ hb q hq⟩

/-- Instance of C16: a window with the values 530 and 700 logs the peak 700, one of the
values polled and above 650, so it is classified Unknown. -/
theorem emitted_peaks_bounded_witness :
    (Sorter.run (Sorter.setup 0) [sampleAt 10 530, sampleAt 20 700, sampleAt 60 0]).events =
      [⟨700, 60⟩] ∧
    Sorter.classifyPeak 700 = Sorter.Material.MAT_UNKNOWN ∧
    (527 : Int) ≤ 700 :=
  have h := emitted_peaks_bounded.1 0 [sampleAt 10 530, sampleAt 20 700, sampleAt 60 0]
    ⟨700, 60⟩ (by decide)
  ⟨by decide, h.2.2.2.2 (by decide), h.1⟩

/-! ## The two sketches run the same machine -/

/-- The `switch` of the calibration sketch and one iteration of the sorting sketch keep
the two machines in correspondence. -/
theorem sameMachine_capture (s : Sorter.Globals) (c c1 : Calibrate.Globals) (p : Poll)
    (h : sameMachine s c) (hl : Calibrate.capture c p = some c1) :
    sameMachine (Sorter.loop s p) c1 := by
  obtain ⟨hst, hev, hsct, hpk⟩ := h
  cases hc : s.currentState
  · have hcc : c.currentState = State.WAITING_FOR_PEAK := by rw [← hst, hc]
    unfold Calibrate.capture at hl
    unfold Sorter.loop
    rw [hcc] at hl
    rw [hc]
    simp only at hl ⊢
    split_ifs at hl ⊢ with hv
    · cases hl
      exact ⟨rfl, hev, fun _ => rfl, fun _ => rfl⟩
    · cases hl
      exact ⟨by rw [hc, hcc], hev, fun hx => absurd hc hx, fun hx => by rw [hc] at hx; cases hx⟩
  · have hcc : c.currentState = State.RECORDING_PEAK := by rw [← hst, hc]
    have hs : s.stateChangeTime = c.stateChangeTime := hsct (by rw [hc]; decide)
    have hp : s.currentPeak = c.currentPeak := hpk hc
    by_cases he : elapsedMs p.now s.stateChangeTime < PEAK_WINDOW_MS
    · have he1 : elapsedMs p.now c.stateChangeTime < PEAK_WINDOW_MS := hs ▸ he
      unfold Calibrate.capture at hl
      unfold Sorter.loop
      rw [hcc] at hl
      rw [hc]
      simp only [he, he1, if_true] at hl ⊢
      rw [← hp] at hl
      split_ifs at hl ⊢ with hv
      · cases hl
        exact ⟨rfl, hev, fun _ => hs, fun _ => rfl⟩
      · cases hl
        exact ⟨by rw [hc, hcc], hev, fun _ => hs, fun _ => hp⟩
    · have he1 : ¬ elapsedMs p.now c.stateChangeTime < PEAK_WINDOW_MS := hs ▸ he
      rw [sorter_loop_close s p hc he]
      unfold Calibrate.capture at hl
      rw [hcc] at hl
      simp only [he1, if_false] at hl
      split_ifs at hl
      cases hl
      exact ⟨rfl, by simp only [hev, hp], fun _ => rfl, fun hx => by cases hx⟩
  · have hcc : c.currentState = State.COOLDOWN := by rw [← hst, hc]
    have hs : s.stateChangeTime = c.stateChangeTime := hsct (by rw [hc]; decide)
    rw [sorter_loop_cooldown s p hc]
    rw [capture_cooldown c p hcc, ← hs] at hl
    split_ifs at hl ⊢
    · cases hl
      exact ⟨rfl, hev, fun hx => absurd rfl hx, fun hx => by cases hx⟩
    · cases hl
      exact ⟨by rw [hc, hcc], hev, fun _ => hs, fun hx => by rw [hc] at hx; cases hx⟩

/-- A run of the calibration sketch that has not halted kept the two machines in
correspondence. -/
theorem sameMachine_run (cap : Nat) (polls : List Poll) (s : Sorter.Globals)
    (c c1 : Calibrate.Globals) (h : sameMachine s c)
    (hr : Calibrate.run cap c polls = some c1) (hh : c1.halted = false) :
    sameMachine (Sorter.run s polls) c1 := by
  induction polls generalizing s c with
  | nil =>
    simp only [Calibrate.run, Option.some.injEq] at hr
    subst hr; exact h
  | cons p ps ih =>
    simp only [Calibrate.run] at hr
    cases hl : Calibrate.loop cap c p with
    | none => simp [hl] at hr
    | some c2 =>
      simp only [hl] at hr
      have h2 : c2.halted = false := by
        cases hx : c2.halted with
        | false => rfl
        | true =>
          rw [run_of_halted cap ps c2 hx] at hr
          cases hr
          rw [hx] at hh; cases hh
      have hroom : c.halted = false ∧ c.sampleIndex < cap := by
        cases hx : c.halted with
        | true =>
          rw [loop_of_halted cap c p hx] at hl
          cases hl
          rw [hx] at h2; cases h2
        | false =>
          refine ⟨rfl, ?_⟩
          by_contra hf
          rw [loop_of_full cap c p hx (by omega)] at hl
          cases hl
          simp at h2
      rw [loop_of_room cap c p hroom.1 hroom.2] at hl
      exact ih (Sorter.loop s p) c2 (sameMachine_capture s c c2 p h hl) hr

/-- The two sketches are in correspondence after their `setup`. -/
theorem sameMachine_setup (t0 cap : Nat) :
    sameMachine (Sorter.setup t0) (Calibrate.setup cap) :=
  ⟨rfl, rfl, fun hx => absurd rfl hx, fun hx => by cases hx⟩

/-- C17: for every sequence of polls, the calibration run from `setup` does not fault, and
as long as it has not halted (in particular while its buffer is not full) it is in the same
state of the machine as the sorting run over the same polls and has logged the same events,
with the same `currentPeak` while recording. As this holds for every sequence, it holds
after every step. Outside the recording state `currentPeak` may differ: after a window
closed at 60 ms the sorting sketch holds 0 and the calibration sketch still holds 530. -/
theorem variants_agree :
    (∀ (t0 cap : Nat) (polls : List Poll),
      ∃ c, Calibrate.run cap (Calibrate.setup cap) polls = some c ∧
        (c.sampleIndex < cap → c.halted = false) ∧
        (c.halted = false →
          c.currentState = (Sorter.run (Sorter.setup t0) polls).currentState ∧
          c.events = (Sorter.run (Sorter.setup t0) polls).events ∧
          (c.currentState = State.RECORDING_PEAK →
            c.currentPeak = (Sorter.run (Sorter.setup t0) polls).currentPeak))) ∧
    (Sorter.run (Sorter.setup 0) [sampleAt 10 530, sampleAt 60 0]).currentPeak = 0 ∧
    (Calibrate.run 100 (Calibrate.setup 100) [sampleAt 10 530, sampleAt 60 0]).map
      (fun c => (c.currentState, c.currentPeak)) = some (State.COOLDOWN, 530) ∧
    (Sorter.run (Sorter.setup 0) [sampleAt 10 530, sampleAt 60 0]).currentState =
      State.COOLDOWN := by
  refine ⟨fun t0 cap polls => ?_, by decide, by decide, by decide⟩
  obtain ⟨c, hr, _, _, _, _, hhalt⟩ := bufferInv_run cap polls _ (bufferInv_setup cap)
  refine ⟨c, hr, fun hlt => ?_, fun hh => ?_⟩
  · cases hx : c.halted with
    | false => rfl
    | true => have := hhalt hx; omega
  · obtain ⟨h1, h2, _, h4⟩ :=
      sameMachine_run cap polls _ _ c (sameMachine_setup t0 cap) hr hh
    exact ⟨h1.symm, h2.symm, fun hx => (h4 (h1.trans hx)).symm⟩

/-- Instance of C17 with capacity 100: after a trigger, a window, a cooldown and a second
trigger the calibration run has not halted, and both sketches are recording with one event
logged. -/
theorem variants_agree_witness :
    ∃ c, Calibrate.run 100 (Calibrate.setup 100)
        [sampleAt 10 530, sampleAt 60 0, sampleAt 3060 0, sampleAt 3070 600] = some c ∧
      c.halted = false ∧ c.currentState = State.RECORDING_PEAK ∧
      c.events = [⟨530, 60⟩] ∧
      (Sorter.run (Sorter.setup 5)
        [sampleAt 10 530, sampleAt 60 0, sampleAt 3060 0, sampleAt 3070 600]).events =
        [⟨530, 60⟩] := by
  obtain ⟨c, hr, _, hagree⟩ := variants_agree.1 5 100
    [sampleAt 10 530, sampleAt 60 0, sampleAt 3060 0, sampleAt 3070 600]
  have hi : (Calibrate.run 100 (Calibrate.setup 100)
      [sampleAt 10 530, sampleAt 60 0, sampleAt 3060 0, sampleAt 3070 600]).map
      (fun c => c.halted) = some false := by decide
  rw [hr] at hi
  simp only [Option.map_some', Option.some.injEq] at hi
  obtain ⟨h1, h2, _⟩ := hagree hi
  have hs : (Sorter.run (Sorter.setup 5)
      [sampleAt 10 530, sampleAt 60 0, sampleAt 3060 0, sampleAt 3070 600]).currentState =
      State.RECORDING_PEAK := by decide
  have he : (Sorter.run (Sorter.setup 5)
      [sampleAt 10 530, sampleAt 60 0, sampleAt 3060 0, sampleAt 3070 600]).events =
      [⟨530, 60⟩] := by decide
  exact ⟨c, hr, hi, h1.trans hs, h2.trans he, he⟩

/-! ## Clock wrap-around -/

/-- The `unsigned long` difference recovers the true elapsed time below `2 ^ 32`, also when
the clock has wrapped in between. -/
theorem elapsedMs_wrap (s d : Nat) (hs : s < ULONG_RANGE) (hd : d < ULONG_RANGE) :
    elapsedMs ((s + d) % ULONG_RANGE) s = d := by
  unfold elapsedMs ULONG_RANGE at *
  omega

/-- C18: with `unsigned long` clock values, for every `stateChangeTime = s` and every true
elapsed time `d < 2 ^ 32`, the clock reads `(s + d) mod 2 ^ 32` and the difference the
sketches compute is `d`, wrapped or not; so the window test `elapsed ≥ 50` and the cooldown
test `elapsed ≥ 3000` decide as `d ≥ 50` and `d ≥ 3000` would. In both sketches a recording
state closes its window exactly when `d ≥ 50`, and a cooldown ends exactly when
`d ≥ 3000`. -/
theorem elapsed_survives_wrap :
    (∀ s d : Nat, s < ULONG_RANGE → d < ULONG_RANGE →
      elapsedMs ((s + d) % ULONG_RANGE) s = d ∧
      (elapsedMs ((s + d) % ULONG_RANGE) s ≥ PEAK_WINDOW_MS ↔ d ≥ 50) ∧
      (elapsedMs ((s + d) % ULONG_RANGE) s ≥ COOLDOWN_TIME_MS ↔ d ≥ 3000)) ∧
    (∀ (g : Sorter.Globals) (p : Poll) (d : Nat),
      g.stateChangeTime < ULONG_RANGE → d < ULONG_RANGE →
      p.now = (g.stateChangeTime + d) % ULONG_RANGE →
      (g.currentState = State.RECORDING_PEAK →
        ((Sorter.loop g p).currentState = State.COOLDOWN ↔ d ≥ 50)) ∧
      (g.currentState = State.COOLDOWN →
        ((Sorter.loop g p).currentState = State.WAITING_FOR_PEAK ↔ d ≥ 3000))) ∧
    (∀ (cap : Nat) (g : Calibrate.Globals) (p : Poll) (d : Nat),
      g.halted = false → 0 ≤ g.sampleIndex → g.sampleIndex < cap →
      g.primaryPeakReadings.length = cap →
      g.stateChangeTime < ULONG_RANGE → d < ULONG_RANGE →
      p.now = (g.stateChangeTime + d) % ULONG_RANGE →
      ∃ g1, Calibrate.loop cap g p = some g1 ∧
        (g.currentState = State.RECORDING_PEAK →
          (g1.currentState = State.COOLDOWN ↔ d ≥ 50)) ∧
        (g.currentState = State.COOLDOWN →
          (g1.currentState = State.WAITING_FOR_PEAK ↔ d ≥ 3000))) := by
  refine ⟨fun s d hs hd => ?_, fun g p d hs hd hp => ?_,
    fun cap g p d hh h0 hf hlen hs hd hp => ?_⟩
  · rw [elapsedMs_wrap s d hs hd]
    exact ⟨rfl, Iff.rfl, Iff.rfl⟩
  · have hel : elapsedMs p.now g.stateChangeTime = d := by
      rw [hp]; exact elapsedMs_wrap _ d hs hd
    refine ⟨fun hc => ?_, fun hc => ?_⟩
    · by_cases he : d < PEAK_WINDOW_MS
      · have hst : (Sorter.loop g p).currentState = State.RECORDING_PEAK := by
          unfold Sorter.loop
          rw [hc]
          simp only [hel, he, if_true]
          split_ifs
          · rfl
          · exact hc
        rw [hst]
        simp only [PEAK_WINDOW_MS] at he
        constructor
        · intro hx; cases hx
        · intro hx; omega
      · rw [sorter_loop_close g p hc (by rw [hel]; exact he)]
        simp only [PEAK_WINDOW_MS] at he
        exact ⟨fun _ => by omega, fun _ => rfl⟩
    · rw [sorter_loop_cooldown g p hc, hel]
      simp only [COOLDOWN_TIME_MS]
      split_ifs with he
      · exact ⟨fun _ => he, fun _ => rfl⟩
      · rw [hc]
        constructor
        · intro hx; cases hx
        · intro hx; omega
  · have hel : elapsedMs p.now g.stateChangeTime = d := by
      rw [hp]; exact elapsedMs_wrap _ d hs hd
    rw [loop_of_room cap g p hh hf]
    have hcs : g.currentState = State.WAITING_FOR_PEAK ∨
        g.currentState = State.RECORDING_PEAK ∨ g.currentState = State.COOLDOWN := by
      cases g.currentState <;> simp
    rcases hcs with hc | hc | hc
    · have hex : ∃ g1, Calibrate.capture g p = some g1 := by
        unfold Calibrate.capture
        rw [hc]
        simp only
        split_ifs
        · exact ⟨_, rfl⟩
        · exact ⟨_, rfl⟩
      obtain ⟨g1, hg1⟩ := hex
      refine ⟨g1, hg1, fun hx => ?_, fun hx => ?_⟩
      · rw [hc] at hx; cases hx
      · rw [hc] at hx; cases hx
    · have hb : 0 ≤ g.sampleIndex ∧ g.sampleIndex < g.primaryPeakReadings.length := by omega
      by_cases he : d < PEAK_WINDOW_MS
      · have hex : ∃ g1, Calibrate.capture g p = some g1 ∧
            g1.currentState = State.RECORDING_PEAK := by
          unfold Calibrate.capture
          rw [hc]
          simp only [hel, he, if_true]
          split_ifs
          · exact ⟨_, rfl, rfl⟩
          · exact ⟨_, rfl, hc⟩
        obtain ⟨g1, hg1, hst⟩ := hex
        simp only [PEAK_WINDOW_MS] at he
        refine ⟨g1, hg1, fun _ => ⟨fun hx => ?_, fun hx => ?_⟩, fun hx => ?_⟩
        · rw [hst] at hx; cases hx
        · omega
        · rw [hc] at hx; cases hx
      · have hex : ∃ g1, Calibrate.capture g p = some g1 ∧
            g1.currentState = State.COOLDOWN := by
          unfold Calibrate.capture
          rw [hc]
          simp only [hel, he, if_false, hb, and_self, if_true]
          exact ⟨_, rfl, rfl⟩
        obtain ⟨g1, hg1, hst⟩ := hex
        simp only [PEAK_WINDOW_MS] at he
        refine ⟨g1, hg1, fun _ => ⟨fun _ => ?_, fun _ => hst⟩, fun hx => ?_⟩
        · omega
        · rw [hc] at hx; cases hx
    · rw [capture_cooldown g p hc, hel]
      simp only [COOLDOWN_TIME_MS]
      split_ifs with he
      · refine ⟨_, rfl, fun hx => ?_, fun _ => ⟨fun _ => he, fun _ => rfl⟩⟩
        rw [hc] at hx; cases hx
      · refine ⟨_, rfl, fun hx => ?_, fun _ => ⟨fun hx => ?_, fun hx => ?_⟩⟩
        · rw [hc] at hx; cases hx
        · rw [hc] at hx; cases hx
        · omega

/-- Instance of C18 across the wrap: a window opened 6 ms before the clock wraps is found
closed at clock value 54, 60 ms later, and is still open at clock value 43, 49 ms later. -/
theorem elapsed_survives_wrap_witness :
    (4294967290 + 60) % ULONG_RANGE = 54 ∧
    elapsedMs 54 4294967290 = 60 ∧
    (Sorter.loop { Sorter.setup 0 with
        currentState := State.RECORDING_PEAK, currentPeak := 530,
        stateChangeTime := 4294967290 } (sampleAt 54 0)).currentState = State.COOLDOWN ∧
    (Sorter.loop { Sorter.setup 0 with
        currentState := State.RECORDING_PEAK, currentPeak := 530,
        stateChangeTime := 4294967290 } (sampleAt 43 0)).currentState ≠ State.COOLDOWN :=
  ⟨by decide,
    (elapsed_survives_wrap.1 4294967290 60 (by decide) (by decide)).1,
    ((elapsed_survives_wrap.2.1 { Sorter.setup 0 with
        currentState := State.RECORDING_PEAK, currentPeak := 530,
        stateChangeTime := 4294967290 } (sampleAt 54 0) 60 (by decide) (by decide)
      (by decide)).1 rfl).2 (by decide),
    fun h => absurd (((elapsed_survives_wrap.2.1 { Sorter.setup 0 with
        currentState := State.RECORDING_PEAK, currentPeak := 530,
        stateChangeTime := 4294967290 } (sampleAt 43 0) 49 (by decide) (by decide)
      (by decide)).1 rfl).1 h) (by decide)⟩
